import Mathlib

/-!
Shallow embedding of the rental-session lifecycle engine of the
profcomff rental backend (routes/rental_session.py, models/base.py,
models/db.py, settings.py), together with proofs of the spec claims.

Timestamps are integers (seconds); the event payload dictionaries and
auto-increment surrogate ids of the audit Event and Strike tables are
not modelled, since no claim refers to them.
-/

namespace RentalBackend

/-- Settings.RENTAL_SESSION_EXPIRY_IN_MINUTES = 15, in seconds. -/
def RENTAL_SESSION_EXPIRY : Int := 15 * 60

/-- Settings.RENTAL_SESSION_CREATE_TIME_LIMITER_MINUTES = 30, in seconds. -/
def RENTAL_SESSION_CREATE_TIME_LIMITER : Int := 30 * 60

/-- Settings.RENTAL_SESSION_CREATE_NUMBER_LIMITER = 2. -/
def RENTAL_SESSION_CREATE_NUMBER_LIMITER : Nat := 2

/-- Settings.BASE_OVERDUE = 18: the fixed default-deadline hour of day (UTC). -/
def BASE_OVERDUE : Nat := 18

/-- models/db.py RentStatus. -/
inductive RentStatus
  | reserved
  | active
  | canceled
  | overdue
  | returned
  | dismissed
  | expired
deriving DecidableEq

/-- A status that reserves or holds an item: RESERVED, ACTIVE or OVERDUE
(the statuses of the blocking-session filter in create_rental_session). -/
def RentStatus.isHolding : RentStatus → Bool
  | .reserved => true
  | .active => true
  | .overdue => true
  | _ => false

/-- models/db.py Item. -/
structure Item where
  id : Nat
  type_id : Nat
  is_available : Bool
  is_deleted : Bool
deriving DecidableEq

/-- models/db.py RentalSession (columns only; the strike link lives in
Strike.session_id, deadline_ts is modelled as optional because no claim
depends on the column default applied at insertion time). -/
structure RentalSession where
  id : Nat
  user_id : Nat
  item_id : Nat
  admin_open_id : Option Nat
  admin_close_id : Option Nat
  reservation_ts : Int
  start_ts : Option Int
  end_ts : Option Int
  actual_return_ts : Option Int
  status : RentStatus
  deadline_ts : Option Int
  user_phone : Option String
  user_fullname : Option String
  is_deleted : Bool
deriving DecidableEq

/-- models/db.py Strike. -/
structure Strike where
  user_id : Nat
  admin_id : Nat
  reason : String
  session_id : Option Nat
  create_ts : Int
  is_deleted : Bool
deriving DecidableEq

/-- models/db.py Event (audit row appended by ActionLogger.log_event). -/
structure Event where
  user_id : Option Nat
  admin_id : Option Nat
  session_id : Option Nat
  action_type : String
deriving DecidableEq

/-- The persistent store. -/
structure State where
  items : List Item
  sessions : List RentalSession
  strikes : List Strike
  events : List Event
  nextSessionId : Nat
deriving DecidableEq

/-- exceptions.py domain errors raised by the session routes. -/
inductive Err
  | objectNotFound
  | alreadyExists
  | forbiddenAction
  | noneAvailable
  | inactiveSession
  | sessionExists
  | rateLimited (minutes : Int)
  | invalidDeadline
  | multipleResults
deriving DecidableEq

/-- SQL form of the RentalSession.item_type_id hybrid property: a scalar
subquery selecting Item.type_id where Item.id == item_id. -/
def itemTypeIdSql (items : List Item) (iid : Nat) : Option Nat :=
  (items.find? (fun it => it.id == iid)).map (fun it => it.type_id)

/-- Set is_available on the (non-deleted) item with the given id; this is
the effect of assigning to session.item.is_available through the ORM
relationship (whose join excludes deleted items). -/
def markItemF (iid : Nat) (avail : Bool) (it : Item) : Item :=
  if it.id = iid ∧ it.is_deleted = false then { it with is_available := avail } else it

def markItem (items : List Item) (iid : Nat) (avail : Bool) : List Item :=
  items.map (markItemF iid avail)

/-- BaseDbModel.query for RentalSession: soft-deleted rows are filtered out
unless with_deleted is passed. -/
def querySessions (withDeleted : Bool) (s : State) : List RentalSession :=
  s.sessions.filter (fun x => withDeleted || !x.is_deleted)

/-- Row filter used by BaseDbModel.get for RentalSession. -/
def sessionKey (sid : Nat) (withDeleted : Bool) (x : RentalSession) : Bool :=
  (withDeleted || !x.is_deleted) && x.id == sid

/-- BaseDbModel.get: .one() over the filtered query, raising ObjectNotFound
when there is no row (NoResultFound). -/
def getSessionW (s : State) (sid : Nat) (withDeleted : Bool) : Except Err RentalSession :=
  match s.sessions.filter (sessionKey sid withDeleted) with
  | [] => .error .objectNotFound
  | [x] => .ok x
  | _ => .error .multipleResults

def getSession (s : State) (sid : Nat) : Except Err RentalSession :=
  getSessionW s sid false

/-- Mutation of the session row found by BaseDbModel.get. -/
def setSession (sessions : List RentalSession) (sid : Nat)
    (f : RentalSession → RentalSession) : List RentalSession :=
  sessions.map (fun x => if sessionKey sid false x then f x else x)

/-- utils/action.py ActionLogger.log_event: append one audit Event. -/
def State.logEvent (s : State) (uid admin sid : Option Nat) (action : String) : State :=
  { s with events := s.events ++
      [{ user_id := uid, admin_id := admin, session_id := sid, action_type := action }] }

/-- The or_(...) blocking-session filter of create_rental_session
(user id, item type, status RESERVED or ACTIVE or OVERDUE). -/
def isBlockingSession (items : List Item) (uid tid : Nat) (x : RentalSession) : Bool :=
  !x.is_deleted && x.user_id == uid && itemTypeIdSql items x.item_id == some tid
    && x.status.isHolding

/-- The rate-limiter filter of create_rental_session: EXPIRED or CANCELED
sessions of that user and item type with reservation_ts after the cutoff. -/
def isChurnSession (items : List Item) (uid tid : Nat) (now : Int) (x : RentalSession) : Bool :=
  !x.is_deleted && x.user_id == uid && itemTypeIdSql items x.item_id == some tid
    && (x.status == RentStatus.expired || x.status == RentStatus.canceled)
    && decide (now - RENTAL_SESSION_CREATE_TIME_LIMITER < x.reservation_ts)

/-- minutes_left = max(0, int((reset_time - now).total_seconds() / 60)). -/
def rateLimitMinutes (oldest now : Int) : Int :=
  max 0 ((oldest + RENTAL_SESSION_CREATE_TIME_LIMITER - now) / 60)

/-- routes/rental_session.py create_rental_session (the handler body; the
caller identity and userdata fields arrive as parameters). -/
def createRentalSession (uid tid : Nat) (now : Int) (phone fullname : Option String)
    (s : State) : Except Err State :=
  if s.sessions.any (isBlockingSession s.items uid tid) then .error .sessionExists
  else
    let churn := s.sessions.filter (isChurnSession s.items uid tid now)
    if RENTAL_SESSION_CREATE_NUMBER_LIMITER ≤ churn.length then
      .error (.rateLimited
        (rateLimitMinutes (((churn.map (fun x => x.reservation_ts)).min?).getD 0) now))
    else
      match s.items.find? (fun it => !it.is_deleted && it.type_id == tid && it.is_available) with
      | none => .error .noneAvailable
      | some it =>
        let newSession : RentalSession :=
          { id := s.nextSessionId, user_id := uid, item_id := it.id,
            admin_open_id := none, admin_close_id := none,
            reservation_ts := now, start_ts := none, end_ts := none,
            actual_return_ts := none, status := .reserved, deadline_ts := none,
            user_phone := phone, user_fullname := fullname, is_deleted := false }
        .ok (State.logEvent
          { s with sessions := s.sessions ++ [newSession],
                   items := markItem s.items it.id false,
                   nextSessionId := s.nextSessionId + 1 }
          (some uid) none (some newSession.id) "CREATE_SESSION")

/-- routes/rental_session.py validate_deadline_ts. -/
def validate_deadline_ts (now : Int) (deadline_ts : Option Int) : Except Err (Option Int) :=
  match deadline_ts with
  | some d => if d ≤ now then .error .invalidDeadline else .ok (some d)
  | none => .ok none

/-- routes/rental_session.py start_rental_session; the default deadline
computed from the wall clock when no deadline is supplied is passed in as
defaultDeadline (its calendar computation is modelled separately below). -/
def startRentalSession (sid admin : Nat) (deadline_ts : Option Int) (defaultDeadline : Int)
    (now : Int) (s : State) : Except Err State :=
  match validate_deadline_ts now deadline_ts with
  | .error e => .error e
  | .ok dl =>
    match getSession s sid with
    | .error e => .error e
    | .ok x =>
      if x.status ≠ .reserved then .error .forbiddenAction
      else
        let newDl := dl.getD defaultDeadline
        .ok (State.logEvent
          { s with sessions := setSession s.sessions sid (fun y =>
              { y with status := .active, start_ts := some now,
                       admin_open_id := some admin, deadline_ts := some newDl }) }
          (some x.user_id) (some admin) (some x.id) "START_SESSION")

/-- routes/rental_session.py accept_end_rental_session. -/
def returnRentalSession (sid admin : Nat) (withStrike : Bool) (strikeReason : String)
    (now : Int) (s : State) : Except Err State :=
  match getSession s sid with
  | .error e => .error e
  | .ok x =>
    if x.status ≠ .active ∧ x.status ≠ .overdue then .error .inactiveSession
    else
      let s1 : State :=
        { s with
          sessions := setSession s.sessions sid (fun y =>
            { y with status := .returned,
                     end_ts := if x.end_ts = none then some now else x.end_ts,
                     actual_return_ts := some now,
                     admin_close_id := some admin }),
          items := markItem s.items x.item_id true }
      let s2 := s1.logEvent (some x.user_id) (some admin) (some x.id) "RETURN_SESSION"
      if withStrike then
        let s3 := { s2 with strikes := s2.strikes ++
          [({ user_id := x.user_id, admin_id := admin, reason := strikeReason,
              session_id := some x.id, create_ts := now, is_deleted := false } : Strike)] }
        .ok (s3.logEvent (some x.user_id) (some admin) (some x.id) "CREATE_STRIKE")
      else .ok s2

/-- routes/rental_session.py cancel_rental_session. -/
def cancelRentalSession (sid uid : Nat) (now : Int) (s : State) : Except Err State :=
  match getSession s sid with
  | .error e => .error e
  | .ok x =>
    if uid ≠ x.user_id then .error .forbiddenAction
    else if x.status ≠ .reserved then .error .forbiddenAction
    else
      .ok (State.logEvent
        { s with
          sessions := setSession s.sessions sid (fun y =>
            { y with status := .canceled, end_ts := some now }),
          items := markItem s.items x.item_id true }
        (some uid) none (some x.id) "CANCEL_SESSION")

/-- The audit row logged by the expiry sweep for one expired reservation. -/
def expireEvent (y : RentalSession) : Event :=
  { user_id := some y.user_id, admin_id := none, session_id := some y.id,
    action_type := "EXPIRE_SESSION" }

/-- The audit row logged by the overdue sweep for one overdue session. -/
def overdueEvent (y : RentalSession) : Event :=
  { user_id := some y.user_id, admin_id := none, session_id := some y.id,
    action_type := "OVERDUE_SESSION" }

/-- Filter of check_sessions_expiration: RESERVED sessions with
reservation_ts before now minus the expiry window. -/
def isExpiredReserved (now : Int) (x : RentalSession) : Bool :=
  !x.is_deleted && x.status == RentStatus.reserved
    && decide (x.reservation_ts < now - RENTAL_SESSION_EXPIRY)

/-- routes/rental_session.py check_sessions_expiration: every expired
RESERVED session is moved to EXPIRED, its item released, and one
EXPIRE_SESSION event logged per session. -/
def check_sessions_expiration (now : Int) (s : State) : State :=
  let batch := s.sessions.filter (isExpiredReserved now)
  { s with
    sessions := s.sessions.map (fun x =>
      if isExpiredReserved now x then { x with status := .expired } else x),
    items := batch.foldl (fun its x => markItem its x.item_id true) s.items,
    events := s.events ++ batch.map expireEvent }

/-- Filter of check_sessions_overdue: ACTIVE sessions past their deadline
(a NULL deadline compares false in SQL). -/
def isOverdueActive (now : Int) (x : RentalSession) : Bool :=
  !x.is_deleted && x.status == RentStatus.active
    && (match x.deadline_ts with
        | some d => decide (d < now)
        | none => false)

/-- routes/rental_session.py check_sessions_overdue. -/
def check_sessions_overdue (now : Int) (s : State) : State :=
  { s with
    sessions := s.sessions.map (fun x =>
      if isOverdueActive now x then { x with status := .overdue } else x),
    events := s.events ++ (s.sessions.filter (isOverdueActive now)).map overdueEvent }

/-- routes/rental_session.py delete_rental_session; RentalSession.delete is
BaseDbModel.delete, which soft-deletes because the model has is_deleted. -/
def deleteRentalSession (sid : Nat) (s : State) : Except Err State :=
  match getSession s sid with
  | .error e => .error e
  | .ok x =>
    if x.status = .active ∨ x.status = .reserved ∨ x.status = .overdue then
      .error .forbiddenAction
    else
      .ok { s with sessions := setSession s.sessions sid (fun y =>
        { y with is_deleted := true }) }

/-- schemas/models.py RentalSessionPatch under model_dump(exclude_unset):
an outer none means the field was not supplied in the request body. -/
structure RentalSessionPatch where
  status : Option RentStatus := none
  end_ts : Option (Option Int) := none
  actual_return_ts : Option (Option Int) := none
  admin_close_id : Option (Option Nat) := none
deriving DecidableEq

/-- BaseDbModel.update's get_new_values flag: some supplied field differs
from the current value of the row. -/
def patchChanged (p : RentalSessionPatch) (x : RentalSession) : Bool :=
  (match p.status with | some v => v != x.status | none => false) ||
  (match p.end_ts with | some v => v != x.end_ts | none => false) ||
  (match p.actual_return_ts with | some v => v != x.actual_return_ts | none => false) ||
  (match p.admin_close_id with | some v => v != x.admin_close_id | none => false)

/-- BaseDbModel.update's setattr loop: each supplied field overwrites the
current value (writing an equal value back is the identity). -/
def applyPatch (p : RentalSessionPatch) (x : RentalSession) : RentalSession :=
  { x with
    status := p.status.getD x.status,
    end_ts := p.end_ts.getD x.end_ts,
    actual_return_ts := p.actual_return_ts.getD x.actual_return_ts,
    admin_close_id := p.admin_close_id.getD x.admin_close_id }

/-- routes/rental_session.py update_rental_session: apply the supplied
fields through BaseDbModel.update, which raises AlreadyExists when no
supplied field differs from the current row. -/
def updateRentalSession (sid admin : Nat) (p : RentalSessionPatch) (s : State) :
    Except Err State :=
  match getSession s sid with
  | .error e => .error e
  | .ok x =>
    if patchChanged p x then
      .ok (State.logEvent { s with sessions := setSession s.sessions sid (applyPatch p) }
        (some x.user_id) (some admin) (some x.id) "UPDATE_SESSION")
    else .error .alreadyExists

/-- A Python naive/aware datetime broken into calendar fields, as
manipulated by datetime.replace in start_rental_session. -/
structure PyDateTime where
  year : Nat
  month : Nat
  day : Nat
  hour : Nat
  minute : Nat
  second : Nat
  microsecond : Nat
deriving DecidableEq

def isLeapYear (y : Nat) : Bool :=
  (y % 4 == 0 && y % 100 != 0) || y % 400 == 0

def daysInMonth (y m : Nat) : Nat :=
  if m = 2 then (if isLeapYear y then 29 else 28)
  else if m = 4 ∨ m = 6 ∨ m = 9 ∨ m = 11 then 30
  else 31

/-- Lexicographic datetime comparison, as Python compares datetimes. -/
def PyDateTime.lt (a b : PyDateTime) : Bool :=
  if a.year ≠ b.year then decide (a.year < b.year)
  else if a.month ≠ b.month then decide (a.month < b.month)
  else if a.day ≠ b.day then decide (a.day < b.day)
  else if a.hour ≠ b.hour then decide (a.hour < b.hour)
  else if a.minute ≠ b.minute then decide (a.minute < b.minute)
  else if a.second ≠ b.second then decide (a.second < b.second)
  else decide (a.microsecond < b.microsecond)

/-- now.replace(hour=h, minute=0, second=0, microsecond=0). -/
def PyDateTime.replaceTime (d : PyDateTime) (h : Nat) : PyDateTime :=
  { d with hour := h, minute := 0, second := 0, microsecond := 0 }

/-- now.replace(day=newDay, hour=h, minute=0, second=0, microsecond=0):
datetime.replace validates the day against the month and raises ValueError
(modelled as none) when it is out of range. -/
def PyDateTime.replaceDayTime (d : PyDateTime) (newDay h : Nat) : Option PyDateTime :=
  if 1 ≤ newDay ∧ newDay ≤ daysInMonth d.year d.month then
    some { d with day := newDay, hour := h, minute := 0, second := 0, microsecond := 0 }
  else none

/-- The default-deadline computation of start_rental_session when no
deadline is supplied: today at BASE_OVERDUE, or, when now is already past
that instant, now.replace(day=now.day + 1, hour=BASE_OVERDUE, ...). -/
def startDefaultDeadline (now : PyDateTime) : Option PyDateTime :=
  let new_deadline := now.replaceTime BASE_OVERDUE
  if PyDateTime.lt new_deadline now then now.replaceDayTime (now.day + 1) BASE_OVERDUE
  else some new_deadline

/-- The operations of the session state machine (without the admin patch
endpoint, which is modelled separately as updateRentalSession). -/
inductive Op
  | create (uid tid : Nat) (now : Int) (phone fullname : Option String)
  | start (sid admin : Nat) (deadline_ts : Option Int) (defaultDeadline now : Int)
  | ret (sid admin : Nat) (withStrike : Bool) (reason : String) (now : Int)
  | cancel (sid uid : Nat) (now : Int)
  | sweepExpire (now : Int)
  | sweepOverdue (now : Int)
  | delete (sid : Nat)

def applyOp : Op → State → Except Err State
  | .create uid tid now ph fn, s => createRentalSession uid tid now ph fn s
  | .start sid admin dl dd now, s => startRentalSession sid admin dl dd now s
  | .ret sid admin ws r now, s => returnRentalSession sid admin ws r now s
  | .cancel sid uid now, s => cancelRentalSession sid uid now s
  | .sweepExpire now, s => .ok (check_sessions_expiration now s)
  | .sweepOverdue now, s => .ok (check_sessions_overdue now s)
  | .delete sid, s => deleteRentalSession sid s

/-- A failed request raises before mutating and its transaction is rolled
back, so it leaves the store unchanged. -/
def runOp (op : Op) (s : State) : State :=
  match applyOp op s with
  | .ok s' => s'
  | .error _ => s

def runOps (ops : List Op) (s : State) : State :=
  ops.foldl (fun s op => runOp op s) s

/-- A store that starts with a catalog of items and no sessions. -/
def initState (items0 : List Item) : State :=
  { items := items0, sessions := [], strikes := [], events := [], nextSessionId := 1 }

/-- There is a session in the list holding the item with this id. -/
def heldBy (sessions : List RentalSession) (iid : Nat) : Prop :=
  ∃ x ∈ sessions, x.item_id = iid ∧ x.status.isHolding = true

instance heldByDecidable (sessions : List RentalSession) (iid : Nat) :
    Decidable (heldBy sessions iid) := by
  unfold heldBy
  infer_instance

/-- The inductive invariant of the store: the availability equivalence,
at most one holding session per item, session-id freshness, and a catalog
of non-deleted items. -/
structure Inv (s : State) : Prop where
  avail : ∀ it ∈ s.items, (it.is_available = true ↔ ¬ heldBy s.sessions it.id)
  uniq : s.sessions.Pairwise (fun a b =>
    a.status.isHolding = true → b.status.isHolding = true → a.item_id ≠ b.item_id)
  sidNodup : (s.sessions.map (fun x => x.id)).Nodup
  sidLt : ∀ x ∈ s.sessions, x.id < s.nextSessionId
  itemsLive : ∀ it ∈ s.items, it.is_deleted = false

/-- The allowed edges of the status graph in spec section 4.3. -/
def statusStepAllowed : RentStatus → RentStatus → Bool
  | .reserved, .active => true
  | .reserved, .canceled => true
  | .reserved, .expired => true
  | .active, .overdue => true
  | .active, .returned => true
  | .overdue, .returned => true
  | .overdue, .dismissed => true
  | _, _ => false

deriving instance DecidableEq for Except

@[simp]
theorem markItemF_id (iid : Nat) (b : Bool) (it : Item) : (markItemF iid b it).id = it.id := by
  unfold markItemF
  split <;> rfl

@[simp]
theorem markItemF_type_id (iid : Nat) (b : Bool) (it : Item) :
    (markItemF iid b it).type_id = it.type_id := by
  unfold markItemF
  split <;> rfl

@[simp]
theorem markItemF_is_deleted (iid : Nat) (b : Bool) (it : Item) :
    (markItemF iid b it).is_deleted = it.is_deleted := by
  unfold markItemF
  split <;> rfl

theorem markItemF_avail (iid : Nat) (b : Bool) (it : Item) :
    (markItemF iid b it).is_available =
      if it.id = iid ∧ it.is_deleted = false then b else it.is_available := by
  unfold markItemF
  split <;> rfl

theorem sessionKey_false_iff (sid : Nat) (x : RentalSession) :
    sessionKey sid false x = true ↔ x.is_deleted = false ∧ x.id = sid := by
  simp [sessionKey]

theorem getSession_ok_filter {s : State} {sid : Nat} {x : RentalSession}
    (h : getSession s sid = .ok x) :
    s.sessions.filter (sessionKey sid false) = [x] := by
  unfold getSession getSessionW at h
  rcases hf : s.sessions.filter (sessionKey sid false) with _ | ⟨y, _ | ⟨z, t⟩⟩
  · rw [hf] at h
    exact absurd h (by simp)
  · rw [hf] at h
    injection h with h1
    rw [h1]
  · rw [hf] at h
    exact absurd h (by simp)

theorem getSession_ok_mem {s : State} {sid : Nat} {x : RentalSession}
    (h : getSession s sid = .ok x) :
    x ∈ s.sessions ∧ x.is_deleted = false ∧ x.id = sid := by
  have hf := getSession_ok_filter h
  have hx : x ∈ s.sessions.filter (sessionKey sid false) := by
    rw [hf]
    exact List.mem_singleton.mpr rfl
  have := List.mem_filter.mp hx
  exact ⟨this.1, (sessionKey_false_iff sid x).mp this.2⟩

theorem getSession_ok_unique {s : State} {sid : Nat} {x : RentalSession}
    (h : getSession s sid = .ok x) :
    ∀ y ∈ s.sessions, sessionKey sid false y = true → y = x := by
  intro y hy hkey
  have : y ∈ s.sessions.filter (sessionKey sid false) := List.mem_filter.mpr ⟨hy, hkey⟩
  rw [getSession_ok_filter h] at this
  exact List.mem_singleton.mp this

theorem filter_id_eq_singleton {l : List RentalSession}
    (hn : (l.map (fun x => x.id)).Nodup) {x : RentalSession} (hx : x ∈ l) :
    l.filter (fun y => y.id == x.id) = [x] := by
  induction l with
  | nil => cases hx
  | cons a t ih =>
    simp only [List.map_cons, List.nodup_cons] at hn
    rcases List.mem_cons.mp hx with h | h
    · subst h
      have htail : t.filter (fun y => y.id == x.id) = [] := by
        apply List.filter_eq_nil_iff.mpr
        intro y hy
        simp only [beq_iff_eq]
        intro hEq
        exact hn.1 (List.mem_map.mpr ⟨y, hy, hEq⟩)
      simp [List.filter_cons, htail]
    · have hne : (a.id == x.id) = false := by
        simp only [beq_eq_false_iff_ne, ne_eq]
        intro hEq
        exact hn.1 (List.mem_map.mpr ⟨x, h, hEq.symm⟩)
      simp [List.filter_cons, hne, ih hn.2 h]

theorem foldl_markItem (batch : List RentalSession) (items : List Item) :
    batch.foldl (fun its x => markItem its x.item_id true) items
      = items.map (fun it =>
          if (∃ b ∈ batch, b.item_id = it.id) ∧ it.is_deleted = false
          then { it with is_available := true } else it) := by
  induction batch generalizing items with
  | nil =>
    simp only [List.foldl_nil]
    have : items.map (fun it =>
        if (∃ b ∈ ([] : List RentalSession), b.item_id = it.id) ∧ it.is_deleted = false
        then { it with is_available := true } else it) = items.map id := by
      apply List.map_congr_left
      intro it _
      simp
    rw [this, List.map_id]
  | cons b bs ih =>
    simp only [List.foldl_cons]
    rw [ih (markItem items b.item_id true)]
    unfold markItem
    rw [List.map_map]
    apply List.map_congr_left
    intro it _
    simp only [Function.comp]
    by_cases h1 : it.id = b.item_id ∧ it.is_deleted = false
    · rw [markItemF, if_pos h1]
      by_cases h3 : ∃ x ∈ bs, x.item_id = it.id
      · simp [h1.2, h3, h1.1]
      · simp only [h1.2, and_true, List.mem_cons]
        rw [if_neg (by simpa using h3), if_pos]
        exact ⟨⟨b, List.mem_cons_self b bs, h1.1.symm⟩, h1.2⟩
    · rw [markItemF, if_neg h1]
      rcases Decidable.not_and_iff_or_not.mp h1 with h1a | h1b
      · by_cases h2 : it.is_deleted = false
        · by_cases h3 : ∃ x ∈ bs, x.item_id = it.id
          · rw [if_pos ⟨h3, h2⟩, if_pos]
            rcases h3 with ⟨y, hy, hyid⟩
            exact ⟨⟨y, List.mem_cons_of_mem b hy, hyid⟩, h2⟩
          · rw [if_neg (by simp [h3]), if_neg]
            intro hcon
            rcases hcon.1 with ⟨y, hy, hyid⟩
            rcases List.mem_cons.mp hy with rfl | hmem
            · exact h1a hyid.symm
            · exact h3 ⟨y, hmem, hyid⟩
        · rw [if_neg (by simp [h2]), if_neg (by simp [h2])]
      · rw [if_neg (by simp [h1b]), if_neg (by simp [h1b])]

theorem Inv.of_parts {s s' : State} (h : Inv s) (hi : s'.items = s.items)
    (hs : s'.sessions = s.sessions) (hn : s'.nextSessionId = s.nextSessionId) : Inv s' := by
  constructor
  · intro it hit
    rw [hs]
    exact h.avail it (hi ▸ hit)
  · rw [hs]
    exact h.uniq
  · rw [hs]
    exact h.sidNodup
  · intro x hx
    rw [hn]
    exact h.sidLt x (hs ▸ hx)
  · intro it hit
    exact h.itemsLive it (hi ▸ hit)

theorem Inv.logEvent {s : State} (h : Inv s) (u a sid : Option Nat) (action : String) :
    Inv (s.logEvent u a sid action) :=
  Inv.of_parts h rfl rfl rfl

theorem uniqSymm : Symmetric (fun a b : RentalSession =>
    a.status.isHolding = true → b.status.isHolding = true → a.item_id ≠ b.item_id) := by
  intro a b hab hb ha
  exact (hab ha hb).symm

theorem Inv.map_preserve {s : State} (F : RentalSession → RentalSession)
    (hid : ∀ x, (F x).id = x.id)
    (hmem : ∀ x ∈ s.sessions,
      (F x).item_id = x.item_id ∧ (F x).status.isHolding = x.status.isHolding)
    (h : Inv s) :
    Inv { s with sessions := s.sessions.map F } := by
  have hHeld : ∀ i, heldBy (s.sessions.map F) i ↔ heldBy s.sessions i := by
    intro i
    constructor
    · rintro ⟨y, hy, hyi, hyh⟩
      rcases List.mem_map.mp hy with ⟨x, hx, rfl⟩
      rcases hmem x hx with ⟨h1, h2⟩
      exact ⟨x, hx, by rw [← h1]; exact hyi, by rw [← h2]; exact hyh⟩
    · rintro ⟨x, hx, hxi, hxh⟩
      rcases hmem x hx with ⟨h1, h2⟩
      exact ⟨F x, List.mem_map_of_mem F hx, h1.trans hxi, h2.trans hxh⟩
  constructor
  · intro it hit
    show it.is_available = true ↔ ¬ heldBy (s.sessions.map F) it.id
    rw [hHeld it.id]
    exact h.avail it hit
  · rw [List.pairwise_map]
    refine List.Pairwise.imp_of_mem ?_ h.uniq
    intro a b ha hb hR hFa hFb
    rcases hmem a ha with ⟨ha1, ha2⟩
    rcases hmem b hb with ⟨hb1, hb2⟩
    rw [ha1, hb1]
    exact hR (ha2 ▸ hFa) (hb2 ▸ hFb)
  · show ((s.sessions.map F).map (fun x => x.id)).Nodup
    have hEq : (s.sessions.map F).map (fun x => x.id) = s.sessions.map (fun x => x.id) := by
      rw [List.map_map]
      apply List.map_congr_left
      intro x _
      exact hid x
    rw [hEq]
    exact h.sidNodup
  · intro y hy
    rcases List.mem_map.mp hy with ⟨x, hx, rfl⟩
    show (F x).id < s.nextSessionId
    rw [hid x]
    exact h.sidLt x hx
  · exact h.itemsLive

theorem Inv.release_preserve {s : State} (m : RentalSession → Bool)
    (g : RentalSession → RentalSession)
    (hgid : ∀ x, (g x).id = x.id)
    (hgitem : ∀ x, (g x).item_id = x.item_id)
    (hghold : ∀ x, (g x).status.isHolding = false)
    (hm : ∀ x ∈ s.sessions, m x = true → x.status.isHolding = true)
    (h : Inv s) :
    Inv { s with
      sessions := s.sessions.map (fun x => if m x then g x else x),
      items := (s.sessions.filter m).foldl
        (fun its x => markItem its x.item_id true) s.items } := by
  have hFid : ∀ x, (if m x then g x else x).id = x.id := by
    intro x
    by_cases hx : m x <;> simp [hx, hgid]
  have hFitem : ∀ x, (if m x then g x else x).item_id = x.item_id := by
    intro x
    by_cases hx : m x <;> simp [hx, hgitem]
  have hFhold_le : ∀ x, (if m x then g x else x).status.isHolding = true →
      x.status.isHolding = true ∧ m x = false := by
    intro x hx
    by_cases hmx : m x
    · rw [if_pos hmx] at hx
      exact absurd hx (by simp [hghold])
    · rw [if_neg hmx] at hx
      exact ⟨hx, by simp [hmx]⟩
  constructor
  · intro it' hit'
    rw [foldl_markItem] at hit'
    rcases List.mem_map.mp hit' with ⟨it, hit, rfl⟩
    have hlive : it.is_deleted = false := h.itemsLive it hit
    by_cases hC : ∃ b ∈ s.sessions.filter m, b.item_id = it.id
    · rw [if_pos ⟨hC, hlive⟩]
      rcases hC with ⟨b, hbf, hbid⟩
      have hbmem := List.mem_filter.mp hbf
      refine iff_of_true rfl ?_
      rintro ⟨y, hy, hyi, hyh⟩
      rcases List.mem_map.mp hy with ⟨x, hx, rfl⟩
      rcases hFhold_le x hyh with ⟨hxh, hxm⟩
      have hxi : x.item_id = it.id := by rw [← hFitem x]; exact hyi
      have hxb : x ≠ b := by
        intro hEq
        rw [hEq] at hxm
        rw [hbmem.2] at hxm
        cases hxm
      have hbh : b.status.isHolding = true := hm b hbmem.1 hbmem.2
      have := List.Pairwise.forall uniqSymm h.uniq hx hbmem.1 hxb hxh hbh
      exact this (hxi.trans hbid.symm)
    · rw [if_neg (by intro hc; exact hC hc.1)]
      have hHeld : heldBy (s.sessions.map (fun x => if m x then g x else x)) it.id
          ↔ heldBy s.sessions it.id := by
        constructor
        · rintro ⟨y, hy, hyi, hyh⟩
          rcases List.mem_map.mp hy with ⟨x, hx, rfl⟩
          rcases hFhold_le x hyh with ⟨hxh, hxm⟩
          exact ⟨x, hx, by rw [← hFitem x]; exact hyi, hxh⟩
        · rintro ⟨x, hx, hxi, hxh⟩
          have hxm : m x = false := by
            by_contra hmx
            have hmx' : m x = true := by
              cases hmxv : m x
              · exact absurd hmxv hmx
              · rfl
            exact hC ⟨x, List.mem_filter.mpr ⟨hx, hmx'⟩, hxi⟩
          refine ⟨x, ?_, ?_, ?_⟩
          · have : (if m x then g x else x) = x := by rw [hxm]; simp
            rw [← this]
            exact List.mem_map_of_mem _ hx
          · exact hxi
          · exact hxh
      show it.is_available = true ↔ ¬ heldBy _ it.id
      rw [hHeld]
      exact h.avail it hit
  · rw [List.pairwise_map]
    refine List.Pairwise.imp_of_mem ?_ h.uniq
    intro a b ha hb hR hFa hFb
    rcases hFhold_le a hFa with ⟨ha1, _⟩
    rcases hFhold_le b hFb with ⟨hb1, _⟩
    rw [hFitem a, hFitem b]
    exact hR ha1 hb1
  · show ((s.sessions.map (fun x => if m x then g x else x)).map (fun x => x.id)).Nodup
    have hEq : (s.sessions.map (fun x => if m x then g x else x)).map (fun x => x.id)
        = s.sessions.map (fun x => x.id) := by
      rw [List.map_map]
      apply List.map_congr_left
      intro x _
      exact hFid x
    rw [hEq]
    exact h.sidNodup
  · intro y hy
    rcases List.mem_map.mp hy with ⟨x, hx, rfl⟩
    show (if m x then g x else x).id < s.nextSessionId
    rw [hFid x]
    exact h.sidLt x hx
  · intro it' hit'
    rw [foldl_markItem] at hit'
    rcases List.mem_map.mp hit' with ⟨it, hit, rfl⟩
    have hlive := h.itemsLive it hit
    split <;> simpa using hlive

theorem setSession_eq_map (l : List RentalSession) (sid : Nat)
    (f : RentalSession → RentalSession) :
    setSession l sid f = l.map (fun x => if sessionKey sid false x then f x else x) := rfl

theorem Inv.create_preserve {s s' : State} {uid tid : Nat} {now : Int} {ph fn : Option String}
    (h : Inv s) (hc : createRentalSession uid tid now ph fn s = .ok s') : Inv s' := by
  simp only [createRentalSession] at hc
  split at hc
  · exact absurd hc (by simp)
  split at hc
  · exact absurd hc (by simp)
  split at hc
  · exact absurd hc (by simp)
  rename_i hblock hrate it hfind
  injection hc with hc
  subst hc
  apply Inv.logEvent
  have hfindp := List.find?_some hfind
  have hitmem := List.mem_of_find?_eq_some hfind
  simp only [Bool.and_eq_true, Bool.not_eq_true', beq_iff_eq] at hfindp
  have hitdel : it.is_deleted = false := hfindp.1.1
  have hitavail : it.is_available = true := hfindp.2
  have hnoHold : ¬ heldBy s.sessions it.id := (h.avail it hitmem).mp hitavail
  constructor
  · intro it' hit'
    rcases List.mem_map.mp hit' with ⟨it0, hit0, rfl⟩
    have hlive0 : it0.is_deleted = false := h.itemsLive it0 hit0
    by_cases hidEq : it0.id = it.id
    · rw [markItemF, if_pos ⟨hidEq, hlive0⟩]
      refine iff_of_false (by simp) ?_
      intro hcon
      apply hcon
      refine ⟨_, List.mem_append_right _ (List.mem_singleton.mpr rfl), ?_, rfl⟩
      show it.id = ({ it0 with is_available := false } : Item).id
      exact hidEq.symm
    · rw [markItemF, if_neg (by intro hcon; exact hidEq hcon.1)]
      have hHeld : heldBy (s.sessions ++
          [({ id := s.nextSessionId, user_id := uid, item_id := it.id,
              admin_open_id := none, admin_close_id := none,
              reservation_ts := now, start_ts := none, end_ts := none,
              actual_return_ts := none, status := .reserved, deadline_ts := none,
              user_phone := ph, user_fullname := fn, is_deleted := false } : RentalSession)])
          it0.id ↔ heldBy s.sessions it0.id := by
        constructor
        · rintro ⟨y, hy, hyi, hyh⟩
          rcases List.mem_append.mp hy with hmem | hmem
          · exact ⟨y, hmem, hyi, hyh⟩
          · rcases List.mem_singleton.mp hmem with rfl
            exact absurd hyi.symm hidEq
        · rintro ⟨y, hy, hyi, hyh⟩
          exact ⟨y, List.mem_append_left _ hy, hyi, hyh⟩
      rw [hHeld]
      exact h.avail it0 hit0
  · rw [List.pairwise_append]
    refine ⟨h.uniq, List.pairwise_singleton _ _, ?_⟩
    intro a ha b hb hah hbh
    rcases List.mem_singleton.mp hb with rfl
    intro hitem
    apply hnoHold
    exact ⟨a, ha, hitem, hah⟩
  · rw [List.map_append]
    refine List.Nodup.append h.sidNodup (List.nodup_singleton _) ?_
    intro i hiOld hiNew
    rcases List.mem_singleton.mp hiNew with rfl
    rcases List.mem_map.mp hiOld with ⟨y, hy, hyid⟩
    have hlt := h.sidLt y hy
    have hyid' : y.id = s.nextSessionId := by simpa using hyid
    omega
  · intro y hy
    rcases List.mem_append.mp hy with hmem | hmem
    · have hlt := h.sidLt y hmem
      show y.id < s.nextSessionId + 1
      omega
    · rcases List.mem_singleton.mp hmem with rfl
      show s.nextSessionId < s.nextSessionId + 1
      omega
  · intro it' hit'
    rcases List.mem_map.mp hit' with ⟨it0, hit0, rfl⟩
    rw [markItemF_is_deleted]
    exact h.itemsLive it0 hit0

theorem Inv.start_preserve {s s' : State} {sid admin : Nat} {dl : Option Int} {dd now : Int}
    (h : Inv s) (hs : startRentalSession sid admin dl dd now s = .ok s') : Inv s' := by
  simp only [startRentalSession] at hs
  split at hs
  · exact absurd hs (by simp)
  rename_i dl' hval
  split at hs
  · exact absurd hs (by simp)
  rename_i x hget
  split at hs
  · exact absurd hs (by simp)
  rename_i hstat
  have hxr : x.status = .reserved := not_not.mp hstat
  injection hs with hs
  subst hs
  apply Inv.logEvent
  rw [setSession_eq_map]
  refine Inv.map_preserve _ ?_ ?_ h
  · intro y
    by_cases hk : sessionKey sid false y = true
    · rw [if_pos hk]
    · rw [if_neg hk]
  · intro y hy
    by_cases hk : sessionKey sid false y = true
    · have hyx : y = x := getSession_ok_unique hget y hy hk
      rw [if_pos hk]
      refine ⟨rfl, ?_⟩
      show RentStatus.isHolding .active = y.status.isHolding
      rw [hyx, hxr]
      rfl
    · rw [if_neg hk]
      exact ⟨rfl, rfl⟩

theorem Inv.return_preserve {s s' : State} {sid admin : Nat} {ws : Bool} {r : String} {now : Int}
    (h : Inv s) (hr : returnRentalSession sid admin ws r now s = .ok s') : Inv s' := by
  simp only [returnRentalSession] at hr
  split at hr
  · exact absurd hr (by simp)
  rename_i x hget
  split at hr
  · exact absurd hr (by simp)
  rename_i hstat
  have hxh : x.status.isHolding = true := by
    rcases not_and_or.mp hstat with h1 | h2
    · rw [not_not.mp h1]
      rfl
    · rw [not_not.mp h2]
      rfl
  have hInner : Inv { s with
      sessions := setSession s.sessions sid (fun y =>
        { y with status := .returned,
                 end_ts := if x.end_ts = none then some now else x.end_ts,
                 actual_return_ts := some now,
                 admin_close_id := some admin }),
      items := markItem s.items x.item_id true } := by
    have hrel := Inv.release_preserve (sessionKey sid false)
      (fun y => { y with status := .returned, end_ts := if x.end_ts = none then some now else x.end_ts, actual_return_ts := some now, admin_close_id := some admin })
      (fun y => rfl) (fun y => rfl) (fun y => rfl)
      (by
        intro y hy hk
        rw [getSession_ok_unique hget y hy hk]
        exact hxh)
      h
    rw [getSession_ok_filter hget] at hrel
    rw [setSession_eq_map]
    simpa using hrel
  split at hr
  · injection hr with hr
    subst hr
    exact Inv.of_parts hInner rfl rfl rfl
  · injection hr with hr
    subst hr
    exact Inv.of_parts hInner rfl rfl rfl

theorem Inv.cancel_preserve {s s' : State} {sid uid : Nat} {now : Int}
    (h : Inv s) (hc : cancelRentalSession sid uid now s = .ok s') : Inv s' := by
  simp only [cancelRentalSession] at hc
  split at hc
  · exact absurd hc (by simp)
  rename_i x hget
  split at hc
  · exact absurd hc (by simp)
  split at hc
  · exact absurd hc (by simp)
  rename_i huid hstat
  have hxr : x.status = .reserved := not_not.mp hstat
  injection hc with hc
  subst hc
  apply Inv.logEvent
  have hrel := Inv.release_preserve (sessionKey sid false)
    (fun y => { y with status := .canceled, end_ts := some now })
    (fun y => rfl) (fun y => rfl) (fun y => rfl)
    (by
      intro y hy hk
      rw [getSession_ok_unique hget y hy hk, hxr]
      rfl)
    h
  rw [getSession_ok_filter hget] at hrel
  rw [setSession_eq_map]
  simpa using hrel

theorem Inv.sweepExpire_preserve (now : Int) {s : State} (h : Inv s) :
    Inv (check_sessions_expiration now s) := by
  have hrel := Inv.release_preserve (isExpiredReserved now)
    (fun x => { x with status := .expired })
    (fun x => rfl) (fun x => rfl) (fun x => rfl)
    (by
      intro x hx hm
      simp only [isExpiredReserved, Bool.and_eq_true, beq_iff_eq] at hm
      rw [hm.1.2]
      rfl)
    h
  exact Inv.of_parts hrel rfl rfl rfl

theorem Inv.sweepOverdue_preserve (now : Int) {s : State} (h : Inv s) :
    Inv (check_sessions_overdue now s) := by
  have hmap := Inv.map_preserve
    (fun x => if isOverdueActive now x then { x with status := .overdue } else x)
    (by
      intro x
      dsimp only
      by_cases hx : isOverdueActive now x = true
      · rw [if_pos hx]
      · rw [if_neg hx])
    (by
      intro x hx
      dsimp only
      by_cases hm : isOverdueActive now x = true
      · rw [if_pos hm]
        refine ⟨rfl, ?_⟩
        simp only [isOverdueActive, Bool.and_eq_true, beq_iff_eq] at hm
        show RentStatus.isHolding .overdue = x.status.isHolding
        rw [hm.1.2]
        rfl
      · rw [if_neg hm]
        exact ⟨rfl, rfl⟩)
    h
  exact Inv.of_parts hmap rfl rfl rfl

theorem Inv.delete_preserve {s s' : State} {sid : Nat}
    (h : Inv s) (hd : deleteRentalSession sid s = .ok s') : Inv s' := by
  simp only [deleteRentalSession] at hd
  split at hd
  · exact absurd hd (by simp)
  rename_i x hget
  split at hd
  · exact absurd hd (by simp)
  injection hd with hd
  subst hd
  rw [setSession_eq_map]
  refine Inv.map_preserve _ ?_ ?_ h
  · intro y
    by_cases hk : sessionKey sid false y = true
    · rw [if_pos hk]
    · rw [if_neg hk]
  · intro y hy
    by_cases hk : sessionKey sid false y = true
    · rw [if_pos hk]
      exact ⟨rfl, rfl⟩
    · rw [if_neg hk]
      exact ⟨rfl, rfl⟩

theorem Inv.runOp_preserve {s : State} (h : Inv s) (op : Op) : Inv (runOp op s) := by
  cases op with
  | create uid tid now ph fn =>
    cases hres : createRentalSession uid tid now ph fn s with
    | error e =>
      simpa [runOp, applyOp, hres] using h
    | ok s' =>
      simpa [runOp, applyOp, hres] using Inv.create_preserve h hres
  | start sid admin dl dd now =>
    cases hres : startRentalSession sid admin dl dd now s with
    | error e =>
      simpa [runOp, applyOp, hres] using h
    | ok s' =>
      simpa [runOp, applyOp, hres] using Inv.start_preserve h hres
  | ret sid admin ws r now =>
    cases hres : returnRentalSession sid admin ws r now s with
    | error e =>
      simpa [runOp, applyOp, hres] using h
    | ok s' =>
      simpa [runOp, applyOp, hres] using Inv.return_preserve h hres
  | cancel sid uid now =>
    cases hres : cancelRentalSession sid uid now s with
    | error e =>
      simpa [runOp, applyOp, hres] using h
    | ok s' =>
      simpa [runOp, applyOp, hres] using Inv.cancel_preserve h hres
  | sweepExpire now =>
    simpa [runOp, applyOp] using Inv.sweepExpire_preserve now h
  | sweepOverdue now =>
    simpa [runOp, applyOp] using Inv.sweepOverdue_preserve now h
  | delete sid =>
    cases hres : deleteRentalSession sid s with
    | error e =>
      simpa [runOp, applyOp, hres] using h
    | ok s' =>
      simpa [runOp, applyOp, hres] using Inv.delete_preserve h hres

theorem Inv.runOps_preserve {s : State} (h : Inv s) (ops : List Op) :
    Inv (runOps ops s) := by
  induction ops generalizing s with
  | nil => simpa [runOps] using h
  | cons op t ih =>
    have : runOps (op :: t) s = runOps t (runOp op s) := by
      simp [runOps]
    rw [this]
    exact ih (Inv.runOp_preserve h op)

theorem Inv.init (items0 : List Item)
    (h0 : ∀ it ∈ items0, it.is_available = true ∧ it.is_deleted = false) :
    Inv (initState items0) := by
  constructor
  · intro it hit
    refine iff_of_true (h0 it hit).1 ?_
    rintro ⟨x, hx, -, -⟩
    cases hx
  · exact List.Pairwise.nil
  · exact List.nodup_nil
  · intro x hx
    cases hx
  · intro it hit
    exact (h0 it hit).2

theorem eq_of_mem_id {l : List RentalSession} (hn : (l.map (fun x => x.id)).Nodup)
    {a b : RentalSession} (ha : a ∈ l) (hb : b ∈ l) (hid : b.id = a.id) : b = a := by
  have hfa := filter_id_eq_singleton hn ha
  have hbf : b ∈ l.filter (fun y => y.id == a.id) :=
    List.mem_filter.mpr ⟨hb, by simp [hid]⟩
  rw [hfa] at hbf
  exact List.mem_singleton.mp hbf

theorem forward_step {s s' : State} (h : Inv s) (op : Op)
    (hstep : applyOp op s = .ok s') :
    ∀ y ∈ s'.sessions, ∀ x ∈ s.sessions, y.id = x.id →
      (y.status = x.status ∨ statusStepAllowed x.status y.status = true) := by
  cases op with
  | create uid tid now ph fn =>
    simp only [applyOp, createRentalSession] at hstep
    split at hstep
    · exact absurd hstep (by simp)
    split at hstep
    · exact absurd hstep (by simp)
    split at hstep
    · exact absurd hstep (by simp)
    rename_i h1 h2 it hfind
    injection hstep with hstep
    subst hstep
    intro y hy x hx hid
    have hy' : y ∈ s.sessions ++
        [({ id := s.nextSessionId, user_id := uid, item_id := it.id,
            admin_open_id := none, admin_close_id := none,
            reservation_ts := now, start_ts := none, end_ts := none,
            actual_return_ts := none, status := .reserved, deadline_ts := none,
            user_phone := ph, user_fullname := fn, is_deleted := false } : RentalSession)] := hy
    rcases List.mem_append.mp hy' with hmem | hmem
    · left
      rw [eq_of_mem_id h.sidNodup hx hmem hid]
    · exfalso
      rcases List.mem_singleton.mp hmem with rfl
      have hlt := h.sidLt x hx
      have hxid : x.id = s.nextSessionId := by simpa using hid.symm
      omega
  | start sid admin dl dd now =>
    simp only [applyOp, startRentalSession] at hstep
    split at hstep
    · exact absurd hstep (by simp)
    rename_i dl' hval
    split at hstep
    · exact absurd hstep (by simp)
    rename_i x0 hget
    split at hstep
    · exact absurd hstep (by simp)
    rename_i hstat
    have hxr : x0.status = .reserved := not_not.mp hstat
    injection hstep with hstep
    subst hstep
    intro y hy x hx hid
    have hy' : y ∈ s.sessions.map (fun w => if sessionKey sid false w then ({ w with status := .active, start_ts := some now, admin_open_id := some admin, deadline_ts := some (dl'.getD dd) }) else w) := hy
    rcases List.mem_map.mp hy' with ⟨z, hz, rfl⟩
    by_cases hk : sessionKey sid false z = true
    · rw [if_pos hk] at hid ⊢
      have hzx0 : z = x0 := getSession_ok_unique hget z hz hk
      have hzx : z = x := eq_of_mem_id h.sidNodup hx hz (by simpa using hid)
      right
      rw [← hzx, hzx0, hxr]
      rfl
    · rw [if_neg hk] at hid ⊢
      left
      rw [eq_of_mem_id h.sidNodup hx hz hid]
  | ret sid admin ws r now =>
    simp only [applyOp, returnRentalSession] at hstep
    split at hstep
    · exact absurd hstep (by simp)
    rename_i x0 hget
    split at hstep
    · exact absurd hstep (by simp)
    rename_i hstat
    have hx0 : x0.status = .active ∨ x0.status = .overdue := by
      rcases not_and_or.mp hstat with h1 | h2
      · exact Or.inl (not_not.mp h1)
      · exact Or.inr (not_not.mp h2)
    have hsess : s'.sessions = s.sessions.map (fun w => if sessionKey sid false w then ({ w with status := .returned, end_ts := if x0.end_ts = none then some now else x0.end_ts, actual_return_ts := some now, admin_close_id := some admin }) else w) := by
      split at hstep
      · injection hstep with hstep
        subst hstep
        rfl
      · injection hstep with hstep
        subst hstep
        rfl
    intro y hy x hx hid
    rw [hsess] at hy
    rcases List.mem_map.mp hy with ⟨z, hz, rfl⟩
    by_cases hk : sessionKey sid false z = true
    · rw [if_pos hk] at hid ⊢
      have hzx0 : z = x0 := getSession_ok_unique hget z hz hk
      have hzx : z = x := eq_of_mem_id h.sidNodup hx hz (by simpa using hid)
      right
      rw [← hzx, hzx0]
      rcases hx0 with hcase | hcase <;> rw [hcase] <;> rfl
    · rw [if_neg hk] at hid ⊢
      left
      rw [eq_of_mem_id h.sidNodup hx hz hid]
  | cancel sid uid now =>
    simp only [applyOp, cancelRentalSession] at hstep
    split at hstep
    · exact absurd hstep (by simp)
    rename_i x0 hget
    split at hstep
    · exact absurd hstep (by simp)
    split at hstep
    · exact absurd hstep (by simp)
    rename_i huid hstat
    have hxr : x0.status = .reserved := not_not.mp hstat
    injection hstep with hstep
    subst hstep
    intro y hy x hx hid
    have hy' : y ∈ s.sessions.map (fun w => if sessionKey sid false w then ({ w with status := .canceled, end_ts := some now }) else w) := hy
    rcases List.mem_map.mp hy' with ⟨z, hz, rfl⟩
    by_cases hk : sessionKey sid false z = true
    · rw [if_pos hk] at hid ⊢
      have hzx0 : z = x0 := getSession_ok_unique hget z hz hk
      have hzx : z = x := eq_of_mem_id h.sidNodup hx hz (by simpa using hid)
      right
      rw [← hzx, hzx0, hxr]
      rfl
    · rw [if_neg hk] at hid ⊢
      left
      rw [eq_of_mem_id h.sidNodup hx hz hid]
  | sweepExpire now =>
    simp only [applyOp] at hstep
    injection hstep with hstep
    subst hstep
    intro y hy x hx hid
    have hy' : y ∈ s.sessions.map (fun w => if isExpiredReserved now w then ({ w with status := .expired }) else w) := hy
    rcases List.mem_map.mp hy' with ⟨z, hz, rfl⟩
    by_cases hk : isExpiredReserved now z = true
    · rw [if_pos hk] at hid ⊢
      have hzr : z.status = .reserved := by
        simp only [isExpiredReserved, Bool.and_eq_true, beq_iff_eq] at hk
        exact hk.1.2
      have hzx : z = x := eq_of_mem_id h.sidNodup hx hz (by simpa using hid)
      right
      rw [← hzx, hzr]
      rfl
    · rw [if_neg hk] at hid ⊢
      left
      rw [eq_of_mem_id h.sidNodup hx hz hid]
  | sweepOverdue now =>
    simp only [applyOp] at hstep
    injection hstep with hstep
    subst hstep
    intro y hy x hx hid
    have hy' : y ∈ s.sessions.map (fun w => if isOverdueActive now w then ({ w with status := .overdue }) else w) := hy
    rcases List.mem_map.mp hy' with ⟨z, hz, rfl⟩
    by_cases hk : isOverdueActive now z = true
    · rw [if_pos hk] at hid ⊢
      have hza : z.status = .active := by
        simp only [isOverdueActive, Bool.and_eq_true, beq_iff_eq] at hk
        exact hk.1.2
      have hzx : z = x := eq_of_mem_id h.sidNodup hx hz (by simpa using hid)
      right
      rw [← hzx, hza]
      rfl
    · rw [if_neg hk] at hid ⊢
      left
      rw [eq_of_mem_id h.sidNodup hx hz hid]
  | delete sid =>
    simp only [applyOp, deleteRentalSession] at hstep
    split at hstep
    · exact absurd hstep (by simp)
    rename_i x0 hget
    split at hstep
    · exact absurd hstep (by simp)
    injection hstep with hstep
    subst hstep
    intro y hy x hx hid
    have hy' : y ∈ s.sessions.map (fun w => if sessionKey sid false w then ({ w with is_deleted := true }) else w) := hy
    rcases List.mem_map.mp hy' with ⟨z, hz, rfl⟩
    by_cases hk : sessionKey sid false z = true
    · rw [if_pos hk] at hid ⊢
      have hzx : z = x := eq_of_mem_id h.sidNodup hx hz (by simpa using hid)
      left
      rw [← hzx]
    · rw [if_neg hk] at hid ⊢
      left
      rw [eq_of_mem_id h.sidNodup hx hz hid]

/-- One available item of type 5, used for concrete runs. -/
def demoItem : Item := { id := 1, type_id := 5, is_available := true, is_deleted := false }

/-- Create a session for user 1 on item type 5, then start it. -/
def demoOps : List Op := [.create 1 5 100 none none, .start 1 9 (some 200) 0 150]

/-- C1: for every Item and every state reachable from a well-formed initial
store by Create, Start, Return, Cancel, Delete and both sweeps,
is_available = true holds iff no RentalSession on that item has status in
RESERVED, ACTIVE, OVERDUE.  AdminUpdate is excluded from the operation
list: patching a session status through it can break the equivalence (see
the counterexample). -/
theorem rental_item_availability_invariant (items0 : List Item)
    (h0 : ∀ it ∈ items0, it.is_available = true ∧ it.is_deleted = false)
    (ops : List Op) :
    ∀ it ∈ (runOps ops (initState items0)).items,
      (it.is_available = true ↔
        ¬ ∃ x ∈ (runOps ops (initState items0)).sessions,
            x.item_id = it.id ∧ x.status.isHolding = true) := by
  have hInv := Inv.runOps_preserve (Inv.init items0 h0) ops
  intro it hit
  exact hInv.avail it hit

/-- Witness for C1 at a concrete catalog and operation sequence. -/
theorem rental_item_availability_invariant_witness :
    (∀ it ∈ [demoItem], it.is_available = true ∧ it.is_deleted = false) ∧
    (∀ it ∈ (runOps demoOps (initState [demoItem])).items,
      (it.is_available = true ↔
        ¬ ∃ x ∈ (runOps demoOps (initState [demoItem])).sessions,
            x.item_id = it.id ∧ x.status.isHolding = true)) :=
  ⟨by decide, rental_item_availability_invariant [demoItem] (by decide) demoOps⟩

/-- A store reached by a single Create: item 1 unavailable, session 1 RESERVED. -/
def c1State : State := runOps [.create 1 5 100 none none] (initState [demoItem])

/-- The state after the admin patch that breaks C1. -/
def c1Bad : State :=
  ((updateRentalSession 1 99 { status := some .returned } c1State).toOption).getD c1State

/-- Counterexample to C1 as stated: after Create followed by AdminUpdate
(status := RETURNED) - both operations in the claim's list - the item is
still unavailable although no session holds it, so the equivalence fails. -/
theorem rental_item_availability_adminpatch_cex :
    (updateRentalSession 1 99 { status := some .returned } c1State).toOption = some c1Bad
    ∧ ¬ (∀ it ∈ c1Bad.items,
        (it.is_available = true ↔
          ¬ ∃ x ∈ c1Bad.sessions, x.item_id = it.id ∧ x.status.isHolding = true)) := by
  constructor
  · decide
  · decide

/-- C2: along every reachable execution of Create, Start, Return, Cancel,
Delete and both sweeps, a session status only ever moves along the edges
RESERVED to ACTIVE, CANCELED or EXPIRED; ACTIVE to OVERDUE or RETURNED;
OVERDUE to RETURNED or DISMISSED (or stays unchanged).  AdminUpdate is
excluded: it can patch a status backward (see the counterexample). -/
theorem rental_status_forward_invariant (items0 : List Item)
    (h0 : ∀ it ∈ items0, it.is_available = true ∧ it.is_deleted = false)
    (ops : List Op) (op : Op) {s' : State}
    (hstep : applyOp op (runOps ops (initState items0)) = .ok s') :
    ∀ y ∈ s'.sessions, ∀ x ∈ (runOps ops (initState items0)).sessions,
      y.id = x.id → (y.status = x.status ∨ statusStepAllowed x.status y.status = true) :=
  forward_step (Inv.runOps_preserve (Inv.init items0 h0) ops) op hstep

/-- The state one step before the witness step of C2. -/
def c2Mid : State := runOps [Op.create 1 5 100 none none] (initState [demoItem])

/-- The state after starting session 1. -/
def c2Next : State := runOp (.start 1 9 (some 200) 0 150) c2Mid

/-- Witness for C2: the Start step at a concrete store moves the session
forward only. -/
theorem rental_status_forward_invariant_witness :
    (∀ it ∈ [demoItem], it.is_available = true ∧ it.is_deleted = false)
    ∧ applyOp (.start 1 9 (some 200) 0 150) (runOps [Op.create 1 5 100 none none]
        (initState [demoItem])) = .ok c2Next
    ∧ (∀ y ∈ c2Next.sessions,
        ∀ x ∈ (runOps [Op.create 1 5 100 none none] (initState [demoItem])).sessions,
        y.id = x.id → (y.status = x.status ∨ statusStepAllowed x.status y.status = true)) :=
  ⟨by decide, by decide,
    rental_status_forward_invariant [demoItem] (by decide)
      [Op.create 1 5 100 none none] (.start 1 9 (some 200) 0 150) (by decide)⟩

/-- A store whose only session is RETURNED, reached by Create, Start, Return. -/
def c2State : State :=
  runOps [.create 1 5 100 none none, .start 1 9 (some 200) 0 150, .ret 1 9 false "" 300]
    (initState [demoItem])

/-- Counterexample to C2 as stated: AdminUpdate (an operation of the system)
patches the RETURNED session of a reachable store back to ACTIVE, a
transition that is neither a self-loop nor an allowed edge. -/
theorem rental_status_backward_adminpatch_cex :
    ((updateRentalSession 1 99 { status := some .active } c2State).toOption.map
      (fun s' => s'.sessions.map (fun y => y.status))) = some [RentStatus.active]
    ∧ c2State.sessions.map (fun y => y.status) = [RentStatus.returned]
    ∧ statusStepAllowed .returned .active = false
    ∧ RentStatus.returned ≠ RentStatus.active := by
  refine ⟨by decide, by decide, by decide, by decide⟩

theorem isHolding_iff (st : RentStatus) :
    st.isHolding = true ↔ (st = .reserved ∨ st = .active ∨ st = .overdue) := by
  cases st <;> simp [RentStatus.isHolding]

theorem isBlockingSession_eq_true (items : List Item) (uid tid : Nat) (x : RentalSession) :
    isBlockingSession items uid tid x = true ↔
      x.is_deleted = false ∧ x.user_id = uid ∧ itemTypeIdSql items x.item_id = some tid
        ∧ (x.status = .reserved ∨ x.status = .active ∨ x.status = .overdue) := by
  simp [isBlockingSession, isHolding_iff, and_assoc]

theorem isChurnSession_eq_true (items : List Item) (uid tid : Nat) (now : Int)
    (x : RentalSession) :
    isChurnSession items uid tid now x = true ↔
      x.is_deleted = false ∧ x.user_id = uid ∧ itemTypeIdSql items x.item_id = some tid
        ∧ (x.status = .expired ∨ x.status = .canceled)
        ∧ now - RENTAL_SESSION_CREATE_TIME_LIMITER < x.reservation_ts := by
  simp [isChurnSession, and_assoc]

/-- Blocking-session existence as the Prop of the claim. -/
def BlockingExists (s : State) (uid tid : Nat) : Prop :=
  ∃ x ∈ s.sessions, x.is_deleted = false ∧ x.user_id = uid
    ∧ itemTypeIdSql s.items x.item_id = some tid
    ∧ (x.status = .reserved ∨ x.status = .active ∨ x.status = .overdue)

instance blockingExistsDecidable (s : State) (uid tid : Nat) :
    Decidable (BlockingExists s uid tid) := by
  unfold BlockingExists
  infer_instance

theorem any_isBlocking_iff (s : State) (uid tid : Nat) :
    s.sessions.any (isBlockingSession s.items uid tid) = true ↔ BlockingExists s uid tid := by
  rw [List.any_eq_true]
  unfold BlockingExists
  constructor
  · rintro ⟨x, hx, hp⟩
    exact ⟨x, hx, (isBlockingSession_eq_true s.items uid tid x).mp hp⟩
  · rintro ⟨x, hx, hp⟩
    exact ⟨x, hx, (isBlockingSession_eq_true s.items uid tid x).mpr hp⟩

/-- C3: Create fails with SessionExists when the user has a RESERVED, ACTIVE
or OVERDUE session of the type; when not blocked it fails with RateLimited
when throttled; when not blocked and not throttled it fails with
NoneAvailable when no non-deleted item of the type is available, and
otherwise it inserts a new RESERVED session with reservation_ts = now for
the allocated item, which is marked unavailable. -/
theorem create_rental_session_spec (uid tid : Nat) (now : Int) (ph fn : Option String)
    (s : State) :
    (BlockingExists s uid tid →
      createRentalSession uid tid now ph fn s = .error .sessionExists)
    ∧ (¬ BlockingExists s uid tid →
      RENTAL_SESSION_CREATE_NUMBER_LIMITER ≤
        (s.sessions.filter (isChurnSession s.items uid tid now)).length →
      ∃ m, createRentalSession uid tid now ph fn s = .error (.rateLimited m))
    ∧ (¬ BlockingExists s uid tid →
      (s.sessions.filter (isChurnSession s.items uid tid now)).length <
        RENTAL_SESSION_CREATE_NUMBER_LIMITER →
      (∀ it ∈ s.items, it.is_deleted = false → it.type_id = tid → it.is_available = false) →
      createRentalSession uid tid now ph fn s = .error .noneAvailable)
    ∧ (∀ it0 : Item, ¬ BlockingExists s uid tid →
      (s.sessions.filter (isChurnSession s.items uid tid now)).length <
        RENTAL_SESSION_CREATE_NUMBER_LIMITER →
      s.items.find? (fun it => !it.is_deleted && it.type_id == tid && it.is_available)
        = some it0 →
      ∃ s', createRentalSession uid tid now ph fn s = .ok s'
        ∧ it0.type_id = tid ∧ it0.is_available = true ∧ it0.is_deleted = false
        ∧ s'.sessions.length = s.sessions.length + 1
        ∧ (∃ y ∈ s'.sessions, y.id = s.nextSessionId ∧ y.user_id = uid
            ∧ y.item_id = it0.id ∧ y.status = .reserved ∧ y.reservation_ts = now)
        ∧ (∀ it' ∈ s'.items, it'.id = it0.id → it'.is_deleted = false →
            it'.is_available = false)
        ∧ (∀ x ∈ s.sessions, x ∈ s'.sessions)) := by
  refine ⟨?_, ?_, ?_, ?_⟩
  · intro hb
    have hany : s.sessions.any (isBlockingSession s.items uid tid) = true :=
      (any_isBlocking_iff s uid tid).mpr hb
    simp only [createRentalSession]
    rw [if_pos hany]
  · intro hnb hrate
    have hany : ¬ s.sessions.any (isBlockingSession s.items uid tid) = true := by
      intro hcon
      exact hnb ((any_isBlocking_iff s uid tid).mp hcon)
    simp only [createRentalSession]
    rw [if_neg hany, if_pos hrate]
    exact ⟨_, rfl⟩
  · intro hnb hrate hnone
    have hany : ¬ s.sessions.any (isBlockingSession s.items uid tid) = true := by
      intro hcon
      exact hnb ((any_isBlocking_iff s uid tid).mp hcon)
    have hfind : s.items.find?
        (fun it => !it.is_deleted && it.type_id == tid && it.is_available) = none := by
      apply List.find?_eq_none.mpr
      intro it hit
      intro hpred
      simp only [Bool.and_eq_true, Bool.not_eq_true', beq_iff_eq] at hpred
      have := hnone it hit hpred.1.1 hpred.1.2
      rw [this] at hpred
      exact absurd hpred.2 (by simp)
    simp only [createRentalSession]
    rw [if_neg hany, if_neg (not_le.mpr hrate), hfind]
  · intro it0 hnb hrate hfind
    have hany : ¬ s.sessions.any (isBlockingSession s.items uid tid) = true := by
      intro hcon
      exact hnb ((any_isBlocking_iff s uid tid).mp hcon)
    have hpred := List.find?_some hfind
    simp only [Bool.and_eq_true, Bool.not_eq_true', beq_iff_eq] at hpred
    simp only [createRentalSession]
    rw [if_neg hany, if_neg (not_le.mpr hrate), hfind]
    refine ⟨_, rfl, hpred.1.2, hpred.2, hpred.1.1, ?_, ?_, ?_, ?_⟩
    · show (s.sessions ++ [_]).length = s.sessions.length + 1
      simp
    · refine ⟨_, List.mem_append_right _ (List.mem_singleton.mpr rfl), rfl, rfl, rfl, rfl, rfl⟩
    · intro it' hit' hid hdel
      have hit'' : it' ∈ (s.items.map (markItemF it0.id false)) := hit'
      rcases List.mem_map.mp hit'' with ⟨z, hz, rfl⟩
      rw [markItemF_avail]
      split
      · rfl
      · rename_i hcond
        exfalso
        apply hcond
        refine ⟨?_, ?_⟩
        · simpa using hid
        · simpa using hdel
    · intro x hx
      exact List.mem_append_left _ hx

/-- Witness for C3: on a store with one free item of type 5, no blocking
session and no churn, Create for user 1 succeeds with the claimed effects. -/
theorem create_rental_session_spec_witness :
    (¬ BlockingExists (initState [demoItem]) 1 5)
    ∧ ((initState [demoItem]).sessions.filter
        (isChurnSession (initState [demoItem]).items 1 5 100)).length <
        RENTAL_SESSION_CREATE_NUMBER_LIMITER
    ∧ (initState [demoItem]).items.find?
        (fun it => !it.is_deleted && it.type_id == 5 && it.is_available) = some demoItem
    ∧ (∃ s', createRentalSession 1 5 100 none none (initState [demoItem]) = .ok s'
        ∧ demoItem.type_id = 5 ∧ demoItem.is_available = true ∧ demoItem.is_deleted = false
        ∧ s'.sessions.length = (initState [demoItem]).sessions.length + 1
        ∧ (∃ y ∈ s'.sessions, y.id = (initState [demoItem]).nextSessionId ∧ y.user_id = 1
            ∧ y.item_id = demoItem.id ∧ y.status = .reserved ∧ y.reservation_ts = 100)
        ∧ (∀ it' ∈ s'.items, it'.id = demoItem.id → it'.is_deleted = false →
            it'.is_available = false)
        ∧ (∀ x ∈ (initState [demoItem]).sessions, x ∈ s'.sessions)) :=
  ⟨by decide, by decide, by decide,
    (create_rental_session_spec 1 5 100 none none (initState [demoItem])).2.2.2 demoItem
      (by decide) (by decide) (by decide)⟩

/-- C4: the rate limiter counts exactly the user's non-deleted EXPIRED or
CANCELED sessions of the item type with reservation_ts inside the trailing
30-minute window (RETURNED and DISMISSED are never counted); when the count
reaches the threshold 2, Create fails with RateLimited carrying
max 0 ((oldest + W - now) / 60) minutes, which is between 0 and 30 whenever
the counted sessions lie in the past; and when every churn session of the
user and type is at least the window old, Create is never rate limited. -/
theorem create_rate_limiter_spec (uid tid : Nat) (now : Int) (ph fn : Option String)
    (s : State) :
    (∀ x, x ∈ s.sessions.filter (isChurnSession s.items uid tid now) ↔
      (x ∈ s.sessions ∧ x.is_deleted = false ∧ x.user_id = uid
        ∧ itemTypeIdSql s.items x.item_id = some tid
        ∧ (x.status = .expired ∨ x.status = .canceled)
        ∧ now - RENTAL_SESSION_CREATE_TIME_LIMITER < x.reservation_ts))
    ∧ (∀ x ∈ s.sessions.filter (isChurnSession s.items uid tid now),
        x.status ≠ .returned ∧ x.status ≠ .dismissed)
    ∧ (∀ oldest : Int, ¬ BlockingExists s uid tid →
        RENTAL_SESSION_CREATE_NUMBER_LIMITER ≤
          (s.sessions.filter (isChurnSession s.items uid tid now)).length →
        ((s.sessions.filter (isChurnSession s.items uid tid now)).map
          (fun x => x.reservation_ts)).min? = some oldest →
        (∀ x ∈ s.sessions.filter (isChurnSession s.items uid tid now),
          x.reservation_ts ≤ now) →
        createRentalSession uid tid now ph fn s
            = .error (.rateLimited (rateLimitMinutes oldest now))
          ∧ 0 ≤ rateLimitMinutes oldest now ∧ rateLimitMinutes oldest now ≤ 30)
    ∧ (¬ BlockingExists s uid tid →
        (∀ x ∈ s.sessions, x.is_deleted = false → x.user_id = uid →
          itemTypeIdSql s.items x.item_id = some tid →
          (x.status = .expired ∨ x.status = .canceled) →
          x.reservation_ts ≤ now - RENTAL_SESSION_CREATE_TIME_LIMITER) →
        ∀ m, createRentalSession uid tid now ph fn s ≠ .error (.rateLimited m)) := by
  refine ⟨?_, ?_, ?_, ?_⟩
  · intro x
    rw [List.mem_filter, isChurnSession_eq_true]
  · intro x hx
    have hp := (isChurnSession_eq_true s.items uid tid now x).mp (List.mem_filter.mp hx).2
    rcases hp.2.2.2.1 with hst | hst <;> rw [hst] <;> exact ⟨by decide, by decide⟩
  · intro oldest hnb hcnt hmin hpast
    have hany : ¬ s.sessions.any (isBlockingSession s.items uid tid) = true := by
      intro hcon
      exact hnb ((any_isBlocking_iff s uid tid).mp hcon)
    have holdmem : oldest ∈ (s.sessions.filter (isChurnSession s.items uid tid now)).map
        (fun x => x.reservation_ts) :=
      List.min?_mem (fun a b => min_choice a b) hmin
    rcases List.mem_map.mp holdmem with ⟨x, hx, hxo⟩
    have hle : oldest ≤ now := hxo ▸ hpast x hx
    refine ⟨?_, ?_, ?_⟩
    · simp only [createRentalSession]
      rw [if_neg hany, if_pos hcnt, hmin]
      rfl
    · exact le_max_left 0 _
    · simp only [rateLimitMinutes, RENTAL_SESSION_CREATE_TIME_LIMITER] at hle ⊢
      omega
  · intro hnb hall m
    have hany : ¬ s.sessions.any (isBlockingSession s.items uid tid) = true := by
      intro hcon
      exact hnb ((any_isBlocking_iff s uid tid).mp hcon)
    have hchurn : s.sessions.filter (isChurnSession s.items uid tid now) = [] := by
      apply List.filter_eq_nil_iff.mpr
      intro x hx hpred
      have hp := (isChurnSession_eq_true s.items uid tid now x).mp hpred
      have := hall x hx hp.1 hp.2.1 hp.2.2.1 hp.2.2.2.1
      have hlt := hp.2.2.2.2
      omega
    simp only [createRentalSession]
    rw [if_neg hany, hchurn]
    rw [if_neg (by decide)]
    split <;> simp

/-- A terminal CANCELED session used to exercise the rate limiter. -/
def churnSess (i : Nat) (ts : Int) : RentalSession :=
  { id := i, user_id := 1, item_id := 1, admin_open_id := none, admin_close_id := none,
    reservation_ts := ts, start_ts := none, end_ts := none, actual_return_ts := none,
    status := .canceled, deadline_ts := none, user_phone := none, user_fullname := none,
    is_deleted := false }

/-- A store where user 1 has already canceled two reservations of type 5
inside the window. -/
def rlState : State :=
  { items := [demoItem], sessions := [churnSess 1 100, churnSess 2 200], strikes := [],
    events := [], nextSessionId := 3 }

/-- Witness for C4: with two CANCELED sessions at 100 s and 200 s and a call
at 1000 s, Create is throttled with 15 minutes left (reset at 100 + 1800). -/
theorem create_rate_limiter_spec_witness :
    (¬ BlockingExists rlState 1 5)
    ∧ RENTAL_SESSION_CREATE_NUMBER_LIMITER ≤
        (rlState.sessions.filter (isChurnSession rlState.items 1 5 1000)).length
    ∧ ((rlState.sessions.filter (isChurnSession rlState.items 1 5 1000)).map
        (fun x => x.reservation_ts)).min? = some 100
    ∧ (∀ x ∈ rlState.sessions.filter (isChurnSession rlState.items 1 5 1000),
        x.reservation_ts ≤ 1000)
    ∧ (createRentalSession 1 5 1000 none none rlState
          = .error (.rateLimited (rateLimitMinutes 100 1000))
        ∧ 0 ≤ rateLimitMinutes 100 1000 ∧ rateLimitMinutes 100 1000 ≤ 30)
    ∧ rateLimitMinutes 100 1000 = 15 :=
  ⟨by decide, by decide, by decide, by decide,
    (create_rate_limiter_spec 1 5 1000 none none rlState).2.2.1 100
      (by decide) (by decide) (by decide) (by decide), by decide⟩

/-- C5: once Return succeeds on an ACTIVE or OVERDUE session, the session is
RETURNED with actual_return_ts = now and end_ts set to now only when it was
previously unset; a second Return on the same session fails with
InactiveSession and leaves the store unchanged; and releasing an item that
is already available is a no-op on the item list. -/
theorem return_rental_session_idempotent (sid admin admin2 : Nat) (ws ws2 : Bool)
    (r r2 : String) (now now2 : Int) (s s1 : State) (x : RentalSession)
    (hget : getSession s sid = .ok x)
    (h1 : returnRentalSession sid admin ws r now s = .ok s1) :
    (returnRentalSession sid admin2 ws2 r2 now2 s1 = .error .inactiveSession
      ∧ runOp (.ret sid admin2 ws2 r2 now2) s1 = s1)
    ∧ (∃ y, getSession s1 sid = .ok y
        ∧ y.end_ts = (if x.end_ts = none then some now else x.end_ts)
        ∧ y.status = .returned ∧ y.actual_return_ts = some now)
    ∧ (∀ (items : List Item) (iid : Nat),
        (∀ it ∈ items, it.id = iid → it.is_available = true) →
        markItem items iid true = items) := by
  simp only [returnRentalSession] at h1
  split at h1
  · exact absurd h1 (by simp)
  rename_i x' hget'
  rw [hget] at hget'
  injection hget' with hget'
  subst hget'
  split at h1
  · exact absurd h1 (by simp)
  rename_i hstat
  have hsess1 : s1.sessions = s.sessions.map (fun w => if sessionKey sid false w then ({ w with status := .returned, end_ts := if x.end_ts = none then some now else x.end_ts, actual_return_ts := some now, admin_close_id := some admin }) else w) := by
    split at h1
    · injection h1 with h1
      subst h1
      rfl
    · injection h1 with h1
      subst h1
      rfl
  have hfilt : s1.sessions.filter (sessionKey sid false)
      = [({ x with status := .returned, end_ts := if x.end_ts = none then some now else x.end_ts, actual_return_ts := some now, admin_close_id := some admin } : RentalSession)] := by
    rw [hsess1, List.filter_map]
    have hcongr : s.sessions.filter ((sessionKey sid false) ∘ (fun w => if sessionKey sid false w then ({ w with status := .returned, end_ts := if x.end_ts = none then some now else x.end_ts, actual_return_ts := some now, admin_close_id := some admin }) else w))
        = s.sessions.filter (sessionKey sid false) := by
      apply List.filter_congr
      intro w _
      simp only [Function.comp]
      by_cases hk : sessionKey sid false w = true
      · rw [if_pos hk]
        rfl
      · rw [if_neg hk]
    rw [hcongr, getSession_ok_filter hget]
    have hkx : sessionKey sid false x = true := by
      rcases getSession_ok_mem hget with ⟨-, hdel, hid⟩
      exact (sessionKey_false_iff sid x).mpr ⟨hdel, hid⟩
    simp [hkx]
  have hget1 : getSession s1 sid = .ok ({ x with status := .returned, end_ts := if x.end_ts = none then some now else x.end_ts, actual_return_ts := some now, admin_close_id := some admin } : RentalSession) := by
    unfold getSession getSessionW
    rw [hfilt]
  have hsecond : returnRentalSession sid admin2 ws2 r2 now2 s1 = .error .inactiveSession := by
    simp only [returnRentalSession, hget1]
    rw [if_pos]
    exact ⟨fun hcon => RentStatus.noConfusion hcon, fun hcon => RentStatus.noConfusion hcon⟩
  refine ⟨⟨hsecond, ?_⟩, ⟨_, hget1, rfl, rfl, rfl⟩, ?_⟩
  · simp [runOp, applyOp, hsecond]
  · intro items iid hall
    unfold markItem
    have hpt : ∀ it ∈ items, markItemF iid true it = it := by
      intro it hit
      unfold markItemF
      split
      · rename_i hcond
        have havail : it.is_available = true := hall it hit hcond.1
        rcases it with ⟨iid', t', avail', del'⟩
        have havail' : avail' = true := havail
        subst havail'
        rfl
      · rfl
    calc items.map (markItemF iid true) = items.map (fun a => a) :=
          List.map_congr_left hpt
      _ = items := List.map_id' items

/-- The store after running Create then Start: session 1 is ACTIVE. -/
def demoStarted : State := runOps demoOps (initState [demoItem])

/-- The ACTIVE session held in demoStarted. -/
def demoActiveSession : RentalSession :=
  { id := 1, user_id := 1, item_id := 1, admin_open_id := some 9, admin_close_id := none,
    reservation_ts := 100, start_ts := some 150, end_ts := none, actual_return_ts := none,
    status := .active, deadline_ts := some 200, user_phone := none, user_fullname := none,
    is_deleted := false }

/-- The store after returning session 1. -/
def demoReturned : State := runOp (.ret 1 9 false "" 300) demoStarted

/-- Witness for C5 on the concrete Create-Start-Return run. -/
theorem return_rental_session_idempotent_witness :
    getSession demoStarted 1 = .ok demoActiveSession
    ∧ returnRentalSession 1 9 false "" 300 demoStarted = .ok demoReturned
    ∧ ((returnRentalSession 1 88 true "late" 400 demoReturned = .error .inactiveSession
        ∧ runOp (.ret 1 88 true "late" 400) demoReturned = demoReturned)
      ∧ (∃ y, getSession demoReturned 1 = .ok y
          ∧ y.end_ts = (if demoActiveSession.end_ts = none then some 300
              else demoActiveSession.end_ts)
          ∧ y.status = .returned ∧ y.actual_return_ts = some 300)
      ∧ (∀ (items : List Item) (iid : Nat),
          (∀ it ∈ items, it.id = iid → it.is_available = true) →
          markItem items iid true = items)) :=
  ⟨by decide, by decide,
    return_rental_session_idempotent 1 9 88 false true "" "late" 300 400 demoStarted
      demoReturned demoActiveSession (by decide) (by decide)⟩

/-- C6, checked at the failing input: a supplied non-future deadline is
rejected with InvalidDeadline, a strictly-future one is written to
deadline_ts, and with no deadline the default is today at BASE_OVERDUE=18:00
UTC when that instant is still ahead, else the same hour on the next day.
The next-day case is computed as now.replace(day=now.day + 1, ...), which
raises ValueError (modelled as none) whenever now is the last day of a
month, so Start does not succeed for every call time. -/
theorem start_default_deadline_month_end_bug :
    validate_deadline_ts 100 (some 50) = .error .invalidDeadline
    ∧ validate_deadline_ts 100 (some 100) = .error .invalidDeadline
    ∧ validate_deadline_ts 100 (some 150) = .ok (some 150)
    ∧ ((startRentalSession 1 9 (some 200) 0 150
          (runOps [Op.create 1 5 100 none none] (initState [demoItem]))).toOption.map
        (fun s' => s'.sessions.map (fun y => (y.id, y.deadline_ts, y.status))))
        = some [(1, some 200, RentStatus.active)]
    ∧ startDefaultDeadline ⟨2026, 1, 30, 19, 0, 0, 0⟩ = some ⟨2026, 1, 31, 18, 0, 0, 0⟩
    ∧ startDefaultDeadline ⟨2026, 1, 31, 17, 0, 0, 0⟩ = some ⟨2026, 1, 31, 18, 0, 0, 0⟩
    ∧ startDefaultDeadline ⟨2026, 1, 31, 19, 0, 0, 0⟩ = none := by
  refine ⟨by decide, by decide, by decide, by decide, by decide, by decide, by decide⟩

theorem mem_releaseFold_avail {batch : List RentalSession} {items : List Item} {it : Item}
    (hit : it ∈ batch.foldl (fun its x => markItem its x.item_id true) items)
    (hex : ∃ b ∈ batch, b.item_id = it.id) (hdel : it.is_deleted = false) :
    it.is_available = true := by
  rw [foldl_markItem] at hit
  rcases List.mem_map.mp hit with ⟨z, hz, rfl⟩
  by_cases hc : (∃ b ∈ batch, b.item_id = z.id) ∧ z.is_deleted = false
  · rw [if_pos hc] at hex hdel ⊢
  · rw [if_neg hc] at hex hdel ⊢
    exact absurd ⟨hex, hdel⟩ hc

/-- C7: the expiry sweep moves every non-deleted RESERVED session whose
reservation_ts + expiry window lies before now to EXPIRED, releases its
item, and appends exactly one EXPIRE_SESSION event for it; sessions that do
not satisfy the expiry filter survive unchanged, and no EXPIRE_SESSION
event is appended for any other session id. -/
theorem sweep_reservation_expiry_spec (now : Int) (s : State)
    (hn : (s.sessions.map (fun x => x.id)).Nodup) :
    (∀ x ∈ s.sessions, x.is_deleted = false → x.status = .reserved →
      x.reservation_ts + RENTAL_SESSION_EXPIRY < now →
      (({ x with status := RentStatus.expired } : RentalSession)
          ∈ (check_sessions_expiration now s).sessions
        ∧ (∀ it ∈ (check_sessions_expiration now s).items,
            it.id = x.item_id → it.is_deleted = false → it.is_available = true)
        ∧ ((check_sessions_expiration now s).events.filter
            (fun e => e.action_type == "EXPIRE_SESSION" && e.session_id == some x.id)).length
            = (s.events.filter
              (fun e => e.action_type == "EXPIRE_SESSION"
                && e.session_id == some x.id)).length + 1))
    ∧ (∀ x ∈ s.sessions, isExpiredReserved now x = false →
        x ∈ (check_sessions_expiration now s).sessions)
    ∧ (∀ i : Nat, (∀ x ∈ s.sessions, isExpiredReserved now x = true → x.id ≠ i) →
        ((check_sessions_expiration now s).events.filter
          (fun e => e.action_type == "EXPIRE_SESSION" && e.session_id == some i)).length
          = (s.events.filter
            (fun e => e.action_type == "EXPIRE_SESSION" && e.session_id == some i)).length) := by
  have hbatchNodup : ((s.sessions.filter (isExpiredReserved now)).map (fun x => x.id)).Nodup :=
    List.Nodup.sublist (List.Sublist.map _ (List.filter_sublist s.sessions)) hn
  refine ⟨?_, ?_, ?_⟩
  · intro x hx hdel hst hts
    have hpred : isExpiredReserved now x = true := by
      simp only [isExpiredReserved, Bool.and_eq_true, Bool.not_eq_true', beq_iff_eq,
        decide_eq_true_eq]
      exact ⟨⟨hdel, hst⟩, by omega⟩
    have hxb : x ∈ s.sessions.filter (isExpiredReserved now) :=
      List.mem_filter.mpr ⟨hx, hpred⟩
    refine ⟨?_, ?_, ?_⟩
    · show _ ∈ s.sessions.map (fun w =>
        if isExpiredReserved now w then ({ w with status := RentStatus.expired }) else w)
      exact List.mem_map.mpr ⟨x, hx, by rw [if_pos hpred]⟩
    · intro it hit hid hdel'
      have hit' : it ∈ (s.sessions.filter (isExpiredReserved now)).foldl
          (fun its y => markItem its y.item_id true) s.items := hit
      exact mem_releaseFold_avail hit' ⟨x, hxb, hid.symm⟩ hdel'
    · have hev : (check_sessions_expiration now s).events = s.events ++
          (s.sessions.filter (isExpiredReserved now)).map expireEvent := rfl
      rw [hev, List.filter_append, List.length_append, List.filter_map]
      have hinner : (s.sessions.filter (isExpiredReserved now)).filter
          ((fun e => e.action_type == "EXPIRE_SESSION" && e.session_id == some x.id) ∘
            expireEvent)
          = (s.sessions.filter (isExpiredReserved now)).filter (fun y => y.id == x.id) := by
        apply List.filter_congr
        intro y _
        simp [Function.comp, expireEvent]
      rw [hinner, filter_id_eq_singleton hbatchNodup hxb]
      simp
  · intro x hx hfalse
    show x ∈ s.sessions.map (fun w =>
      if isExpiredReserved now w then ({ w with status := RentStatus.expired }) else w)
    refine List.mem_map.mpr ⟨x, hx, ?_⟩
    rw [if_neg (by simp [hfalse])]
  · intro i hno
    have hev : (check_sessions_expiration now s).events = s.events ++
        (s.sessions.filter (isExpiredReserved now)).map expireEvent := rfl
    rw [hev, List.filter_append, List.length_append, List.filter_map]
    have hinner : (s.sessions.filter (isExpiredReserved now)).filter
        ((fun e => e.action_type == "EXPIRE_SESSION" && e.session_id == some i) ∘
          expireEvent)
        = (s.sessions.filter (isExpiredReserved now)).filter (fun y => y.id == i) := by
      apply List.filter_congr
      intro y _
      simp [Function.comp, expireEvent]
    have hempty : (s.sessions.filter (isExpiredReserved now)).filter (fun y => y.id == i)
        = [] := by
      apply List.filter_eq_nil_iff.mpr
      intro y hy
      have hmem := List.mem_filter.mp hy
      have := hno y hmem.1 hmem.2
      simp [this]
    rw [hinner, hempty]
    simp

/-- Witness for C7: the reservation from the demo Create expires once the
sweep runs one second past the 15-minute window. -/
theorem sweep_reservation_expiry_spec_witness :
    ((c1State.sessions.map (fun x => x.id)).Nodup
      ∧ (∃ x ∈ c1State.sessions, x.is_deleted = false ∧ x.status = .reserved
          ∧ x.reservation_ts + RENTAL_SESSION_EXPIRY < 1001))
    ∧ (∀ x ∈ c1State.sessions, x.is_deleted = false → x.status = .reserved →
        x.reservation_ts + RENTAL_SESSION_EXPIRY < 1001 →
        (({ x with status := RentStatus.expired } : RentalSession)
            ∈ (check_sessions_expiration 1001 c1State).sessions
          ∧ (∀ it ∈ (check_sessions_expiration 1001 c1State).items,
              it.id = x.item_id → it.is_deleted = false → it.is_available = true)
          ∧ ((check_sessions_expiration 1001 c1State).events.filter
              (fun e => e.action_type == "EXPIRE_SESSION" && e.session_id == some x.id)).length
              = (c1State.events.filter
                (fun e => e.action_type == "EXPIRE_SESSION"
                  && e.session_id == some x.id)).length + 1)) :=
  ⟨⟨by decide, by decide⟩,
    (sweep_reservation_expiry_spec 1001 c1State (by decide)).1⟩

/-- C8 (amended): Delete fails with ForbiddenAction on a RESERVED, ACTIVE or
OVERDUE session, leaving the store unchanged; on any other status it
soft-deletes the record - it stays stored, marked is_deleted = true, rather
than being hard-removed. -/
theorem delete_rental_session_spec (sid : Nat) (s : State) (x : RentalSession)
    (hget : getSession s sid = .ok x) :
    (x.status.isHolding = true →
      deleteRentalSession sid s = .error .forbiddenAction ∧ runOp (.delete sid) s = s)
    ∧ (x.status.isHolding = false →
      ∃ s', deleteRentalSession sid s = .ok s'
        ∧ ({ x with is_deleted := true } : RentalSession) ∈ s'.sessions
        ∧ s'.sessions.length = s.sessions.length
        ∧ s'.items = s.items) := by
  rcases getSession_ok_mem hget with ⟨hx, hdel, hid⟩
  have hkx : sessionKey sid false x = true := (sessionKey_false_iff sid x).mpr ⟨hdel, hid⟩
  constructor
  · intro hh
    have hcond : x.status = .active ∨ x.status = .reserved ∨ x.status = .overdue := by
      rcases (isHolding_iff x.status).mp hh with h | h | h
      · exact Or.inr (Or.inl h)
      · exact Or.inl h
      · exact Or.inr (Or.inr h)
    have herr : deleteRentalSession sid s = .error .forbiddenAction := by
      simp only [deleteRentalSession, hget]
      rw [if_pos hcond]
    exact ⟨herr, by simp [runOp, applyOp, herr]⟩
  · intro hh
    have hcond : ¬ (x.status = .active ∨ x.status = .reserved ∨ x.status = .overdue) := by
      intro hcon
      have : x.status.isHolding = true := by
        apply (isHolding_iff x.status).mpr
        rcases hcon with h | h | h
        · exact Or.inr (Or.inl h)
        · exact Or.inl h
        · exact Or.inr (Or.inr h)
      rw [hh] at this
      cases this
    have hok : deleteRentalSession sid s
        = .ok { s with sessions := setSession s.sessions sid (fun y =>
            { y with is_deleted := true }) } := by
      simp only [deleteRentalSession, hget]
      rw [if_neg hcond]
    refine ⟨_, hok, ?_, ?_, rfl⟩
    · show _ ∈ setSession s.sessions sid (fun y => { y with is_deleted := true })
      rw [setSession_eq_map]
      exact List.mem_map.mpr ⟨x, hx, by rw [if_pos hkx]⟩
    · show (setSession s.sessions sid (fun y => { y with is_deleted := true })).length
        = s.sessions.length
      rw [setSession_eq_map]
      exact List.length_map s.sessions _

/-- Witness for C8 on the Create-Start-Return run: the RETURNED session can
be deleted and survives as a tombstone. -/
def demoReturnedSession : RentalSession :=
  { id := 1, user_id := 1, item_id := 1, admin_open_id := some 9, admin_close_id := some 9,
    reservation_ts := 100, start_ts := some 150, end_ts := some 300,
    actual_return_ts := some 300, status := .returned, deadline_ts := some 200,
    user_phone := none, user_fullname := none, is_deleted := false }

theorem delete_rental_session_spec_witness :
    getSession demoReturned 1 = .ok demoReturnedSession
    ∧ demoReturnedSession.status.isHolding = false
    ∧ (∃ s', deleteRentalSession 1 demoReturned = .ok s'
        ∧ ({ demoReturnedSession with is_deleted := true } : RentalSession) ∈ s'.sessions
        ∧ s'.sessions.length = demoReturned.sessions.length
        ∧ s'.items = demoReturned.items) :=
  ⟨by decide, by decide,
    (delete_rental_session_spec 1 demoReturned demoReturnedSession (by decide)).2
      (by decide)⟩

/-- Counterexample to C8 as stated: deleting the RETURNED session does not
hard-remove the record; the store still holds one session row with that id,
now carrying is_deleted = true. -/
theorem delete_rental_session_soft_cex :
    ((deleteRentalSession 1 demoReturned).toOption.map
      (fun s' => (s'.sessions.length, s'.sessions.map (fun y => (y.id, y.is_deleted)))))
      = some (1, [(1, true)]) := by
  decide

/-- C9: AdminUpdate applies exactly the supplied patch fields (omitted
fields keep their current values and no other column is touched), rejects
with AlreadyExists every call whose supplied fields all equal the current
values - in particular the empty patch - and otherwise stores the patched
session, leaving all other sessions and the items untouched. -/
theorem update_rental_session_spec (sid admin : Nat) (p : RentalSessionPatch) (s : State)
    (x : RentalSession) (hget : getSession s sid = .ok x) :
    (patchChanged p x = false ↔
      ((∀ v, p.status = some v → v = x.status)
        ∧ (∀ v, p.end_ts = some v → v = x.end_ts)
        ∧ (∀ v, p.actual_return_ts = some v → v = x.actual_return_ts)
        ∧ (∀ v, p.admin_close_id = some v → v = x.admin_close_id)))
    ∧ (patchChanged p x = false →
        updateRentalSession sid admin p s = .error .alreadyExists)
    ∧ (patchChanged p x = true →
      ∃ s', updateRentalSession sid admin p s = .ok s'
        ∧ applyPatch p x ∈ s'.sessions
        ∧ (∀ y ∈ s.sessions, y.id ≠ sid → y ∈ s'.sessions)
        ∧ s'.items = s.items)
    ∧ ((applyPatch p x).id = x.id ∧ (applyPatch p x).user_id = x.user_id
        ∧ (applyPatch p x).item_id = x.item_id
        ∧ (applyPatch p x).reservation_ts = x.reservation_ts
        ∧ (applyPatch p x).start_ts = x.start_ts
        ∧ (applyPatch p x).deadline_ts = x.deadline_ts)
    ∧ ((p.status = none → (applyPatch p x).status = x.status)
        ∧ ∀ v, p.status = some v → (applyPatch p x).status = v)
    ∧ ((p.end_ts = none → (applyPatch p x).end_ts = x.end_ts)
        ∧ ∀ v, p.end_ts = some v → (applyPatch p x).end_ts = v)
    ∧ ((p.actual_return_ts = none →
          (applyPatch p x).actual_return_ts = x.actual_return_ts)
        ∧ ∀ v, p.actual_return_ts = some v → (applyPatch p x).actual_return_ts = v)
    ∧ ((p.admin_close_id = none → (applyPatch p x).admin_close_id = x.admin_close_id)
        ∧ ∀ v, p.admin_close_id = some v → (applyPatch p x).admin_close_id = v) := by
  rcases getSession_ok_mem hget with ⟨hx, hdel, hid⟩
  have hkx : sessionKey sid false x = true := (sessionKey_false_iff sid x).mpr ⟨hdel, hid⟩
  refine ⟨?_, ?_, ?_, ?_, ?_, ?_, ?_, ?_⟩
  · rcases p with ⟨ps, pe, pa, pc⟩
    cases ps <;> cases pe <;> cases pa <;> cases pc <;>
      simp [patchChanged, and_assoc]
  · intro hf
    simp only [updateRentalSession, hget]
    rw [if_neg (by simp [hf])]
  · intro ht
    have hok : updateRentalSession sid admin p s
        = .ok (State.logEvent { s with
            sessions := setSession s.sessions sid (applyPatch p) }
          (some x.user_id) (some admin) (some x.id) "UPDATE_SESSION") := by
      simp only [updateRentalSession, hget]
      rw [if_pos ht]
    refine ⟨_, hok, ?_, ?_, rfl⟩
    · show _ ∈ setSession s.sessions sid (applyPatch p)
      rw [setSession_eq_map]
      exact List.mem_map.mpr ⟨x, hx, by rw [if_pos hkx]⟩
    · intro y hy hne
      show y ∈ setSession s.sessions sid (applyPatch p)
      rw [setSession_eq_map]
      refine List.mem_map.mpr ⟨y, hy, ?_⟩
      rw [if_neg (by simp [sessionKey, hne])]
  · exact ⟨rfl, rfl, rfl, rfl, rfl, rfl⟩
  · constructor
    · intro h
      simp [applyPatch, h]
    · intro v h
      simp [applyPatch, h]
  · constructor
    · intro h
      simp [applyPatch, h]
    · intro v h
      simp [applyPatch, h]
  · constructor
    · intro h
      simp [applyPatch, h]
    · intro v h
      simp [applyPatch, h]
  · constructor
    · intro h
      simp [applyPatch, h]
    · intro v h
      simp [applyPatch, h]

/-- A patch that closes the session under admin 7. -/
def demoPatch : RentalSessionPatch := { admin_close_id := some (some 7) }

/-- Witness for C9: on the ACTIVE demo session, the no-op empty patch is
rejected with AlreadyExists and a real patch stores exactly its fields. -/
theorem update_rental_session_spec_witness :
    getSession demoStarted 1 = .ok demoActiveSession
    ∧ patchChanged ({} : RentalSessionPatch) demoActiveSession = false
    ∧ updateRentalSession 1 99 ({} : RentalSessionPatch) demoStarted
        = .error .alreadyExists
    ∧ patchChanged demoPatch demoActiveSession = true
    ∧ (∃ s', updateRentalSession 1 99 demoPatch demoStarted = .ok s'
        ∧ applyPatch demoPatch demoActiveSession ∈ s'.sessions
        ∧ (∀ y ∈ demoStarted.sessions, y.id ≠ 1 → y ∈ s'.sessions)
        ∧ s'.items = demoStarted.items) :=
  ⟨by decide, by decide,
    (update_rental_session_spec 1 99 ({} : RentalSessionPatch) demoStarted
      demoActiveSession (by decide)).2.1 (by decide),
    by decide,
    (update_rental_session_spec 1 99 demoPatch demoStarted demoActiveSession
      (by decide)).2.2.1 (by decide)⟩

/-- C10: a successful Delete keeps the record with is_deleted = true instead
of removing it; afterwards the default get raises ObjectNotFound and list
queries without with_deleted never return it, while other sessions remain. -/
theorem soft_delete_semantics (sid : Nat) (s : State) (x : RentalSession)
    (hget : getSession s sid = .ok x) (hstatus : x.status.isHolding = false) :
    ∃ s', deleteRentalSession sid s = .ok s'
      ∧ ({ x with is_deleted := true } : RentalSession) ∈ s'.sessions
      ∧ s'.sessions.length = s.sessions.length
      ∧ getSession s' sid = .error .objectNotFound
      ∧ (∀ y ∈ querySessions false s', y.id ≠ sid)
      ∧ (∀ y ∈ s.sessions, y.id ≠ sid → y ∈ s'.sessions) := by
  rcases getSession_ok_mem hget with ⟨hx, hdel, hid⟩
  have hkx : sessionKey sid false x = true := (sessionKey_false_iff sid x).mpr ⟨hdel, hid⟩
  have hcond : ¬ (x.status = .active ∨ x.status = .reserved ∨ x.status = .overdue) := by
    intro hcon
    have : x.status.isHolding = true := by
      apply (isHolding_iff x.status).mpr
      rcases hcon with h | h | h
      · exact Or.inr (Or.inl h)
      · exact Or.inl h
      · exact Or.inr (Or.inr h)
    rw [hstatus] at this
    cases this
  have hok : deleteRentalSession sid s
      = .ok { s with sessions := setSession s.sessions sid (fun y =>
          { y with is_deleted := true }) } := by
    simp only [deleteRentalSession, hget]
    rw [if_neg hcond]
  have hkey_all : ∀ w ∈ setSession s.sessions sid (fun y => { y with is_deleted := true }),
      ¬ sessionKey sid false w = true := by
    rw [setSession_eq_map]
    intro w hw
    rcases List.mem_map.mp hw with ⟨z, hz, rfl⟩
    by_cases hk : sessionKey sid false z = true
    · rw [if_pos hk]
      simp [sessionKey]
    · rw [if_neg hk]
      exact hk
  refine ⟨_, hok, ?_, ?_, ?_, ?_, ?_⟩
  · show _ ∈ setSession s.sessions sid (fun y => { y with is_deleted := true })
    rw [setSession_eq_map]
    exact List.mem_map.mpr ⟨x, hx, by rw [if_pos hkx]⟩
  · show (setSession s.sessions sid (fun y => { y with is_deleted := true })).length
      = s.sessions.length
    rw [setSession_eq_map]
    exact List.length_map s.sessions _
  · unfold getSession getSessionW
    have hfilt : (setSession s.sessions sid (fun y =>
        { y with is_deleted := true })).filter (sessionKey sid false) = [] := by
      apply List.filter_eq_nil_iff.mpr
      exact hkey_all
    rw [show ({ s with sessions := setSession s.sessions sid (fun y =>
        { y with is_deleted := true }) } : State).sessions
      = setSession s.sessions sid (fun y => { y with is_deleted := true }) from rfl, hfilt]
  · intro y hy
    have hy' := List.mem_filter.mp hy
    have hnk := hkey_all y hy'.1
    intro hcon
    apply hnk
    simp only [sessionKey]
    have hnd : (!y.is_deleted) = true := hy'.2
    rw [hnd, hcon]
    simp
  · intro y hy hne
    show y ∈ setSession s.sessions sid (fun w => { w with is_deleted := true })
    rw [setSession_eq_map]
    refine List.mem_map.mpr ⟨y, hy, ?_⟩
    rw [if_neg (by simp [sessionKey, hne])]

/-- Witness for C10: the RETURNED demo session is soft-deleted and hidden
from the default get and queries. -/
theorem soft_delete_semantics_witness :
    getSession demoReturned 1 = .ok demoReturnedSession
    ∧ demoReturnedSession.status.isHolding = false
    ∧ (∃ s', deleteRentalSession 1 demoReturned = .ok s'
        ∧ ({ demoReturnedSession with is_deleted := true } : RentalSession) ∈ s'.sessions
        ∧ s'.sessions.length = demoReturned.sessions.length
        ∧ getSession s' 1 = .error .objectNotFound
        ∧ (∀ y ∈ querySessions false s', y.id ≠ 1)
        ∧ (∀ y ∈ demoReturned.sessions, y.id ≠ 1 → y ∈ s'.sessions)) :=
  ⟨by decide, by decide,
    soft_delete_semantics 1 demoReturned demoReturnedSession (by decide) (by decide)⟩

end RentalBackend
